import Mathlib

/-!
Shallow embedding of `src/config.rs` of shadowsocks-rust: the configuration
loader/validator.  JSON values follow the `rustc-serialize` `Json` type that
the source manipulates; objects are association lists of string keys.
Machine integers are modelled as `Nat` with explicit `% 2 ^ w` where the source
performs an `as` cast.  Functions that can `panic!` return a dedicated
three-way result type.
-/

/-- Json value tree, modelled from the external collaborator `rustc-serialize`
(`serialize::json::Json`): the builder produces `U64` for non-negative
integers, `I64` for negative ones, `F64` for other numbers; objects are
string-keyed maps, modelled here as association lists. -/
inductive Json where
  | null : Json
  | boolean (b : Bool) : Json
  | u64 (n : Nat) : Json
  | i64 (n : Int) : Json
  | f64 : Json
  | str (s : String) : Json
  | arr (elems : List Json) : Json
  | obj (kvs : List (String × Json)) : Json

/-- Object type: `serialize::json::Object`, a map from string keys to values. -/
def JsonObj : Type := List (String × Json)

/-- Map lookup (`BTreeMap::get`). -/
def jget (o : JsonObj) (k : String) : Option Json :=
  match o with
  | [] => none
  | (k0, v0) :: rest => if k0 = k then some v0 else jget rest k

/-- Map insert (`BTreeMap::insert`): replaces the value at an existing key,
otherwise adds the binding (insertion order stands in for the map's key
order; lookups cannot tell the difference). -/
def objInsert (o : JsonObj) (k : String) (v : Json) : JsonObj :=
  match o with
  | [] => [(k, v)]
  | (k0, v0) :: rest => if k0 = k then (k, v) :: rest else (k0, v0) :: objInsert rest k v

/-- Modelled from rustc-serialize: `Json::as_u64` yields the integer for
`U64`, and for a non-negative `I64`; every other variant yields `None`. -/
def Json.as_u64 : Json → Option Nat
  | .u64 n => some n
  | .i64 n => if 0 ≤ n then some n.toNat else none
  | _ => none

/-- Modelled from rustc-serialize: `Json::as_string`. -/
def Json.as_string : Json → Option String
  | .str s => some s
  | _ => none

/-- Modelled from rustc-serialize: `Json::as_array`. -/
def Json.as_array : Json → Option (List Json)
  | .arr l => some l
  | _ => none

/-- Modelled from rustc-serialize: `Json::as_object`. -/
def Json.as_object : Json → Option JsonObj
  | .obj o => some o
  | _ => none

/-! ### Character and digit utilities (modelling Rust std string parsing) -/

/-- Decimal digit value of a character, if it is one of `0`-`9`. -/
def charToDigit? (c : Char) : Option Nat :=
  if 48 ≤ c.toNat ∧ c.toNat ≤ 57 then some (c.toNat - 48) else none

/-- Hexadecimal digit value of a character (`0`-`9`, `a`-`f`, `A`-`F`). -/
def charToHex? (c : Char) : Option Nat :=
  if 48 ≤ c.toNat ∧ c.toNat ≤ 57 then some (c.toNat - 48)
  else if 97 ≤ c.toNat ∧ c.toNat ≤ 102 then some (c.toNat - 87)
  else if 65 ≤ c.toNat ∧ c.toNat ≤ 70 then some (c.toNat - 55)
  else none

/-- Fold a digit list left-to-right into a value, failing on a non-digit. -/
def decValueGo (acc : Nat) : List Char → Option Nat
  | [] => some acc
  | c :: cs =>
    match charToDigit? c with
    | some d => decValueGo (acc * 10 + d) cs
    | none => none

/-- Value of a non-empty all-decimal-digit character list. -/
def decValue? : List Char → Option Nat
  | [] => none
  | l => decValueGo 0 l

/-- Fold a hex digit list left-to-right into a value, failing on a non-digit. -/
def hexValueGo (acc : Nat) : List Char → Option Nat
  | [] => some acc
  | c :: cs =>
    match charToHex? c with
    | some d => hexValueGo (acc * 16 + d) cs
    | none => none

/-- Value of a non-empty all-hex-digit character list. -/
def hexValue? : List Char → Option Nat
  | [] => none
  | l => hexValueGo 0 l

/-- Split a character list at every occurrence of `c` (Rust `str::split`):
always returns at least one (possibly empty) segment. -/
def splitOnChar (c : Char) : List Char → List (List Char)
  | [] => [[]]
  | x :: xs =>
    let r := splitOnChar c xs
    if x = c then [] :: r
    else
      match r with
      | [] => [[x]]
      | h :: t => (x :: h) :: t

/-- Split a character list at the first occurrence of two adjacent colons
(the IPv6 `::` marker), when there is one. -/
def splitDColon : List Char → Option (List Char × List Char)
  | [] => none
  | [_] => none
  | a :: b :: rest =>
    if a = ':' ∧ b = ':' then some ([], rest)
    else
      match splitDColon (b :: rest) with
      | some (l, r) => some (a :: l, r)
      | none => none

/-- Split a character list at the first occurrence of `]:` (closing a
bracketed IPv6 socket address), when there is one. -/
def splitRBracketColon : List Char → Option (List Char × List Char)
  | [] => none
  | [_] => none
  | a :: b :: rest =>
    if a = ']' ∧ b = ':' then some ([], rest)
    else
      match splitRBracketColon (b :: rest) with
      | some (l, r) => some (a :: l, r)
      | none => none

/-- Little-endian decimal digit values of `n` (fuel-driven; `fuel ≥ n`). -/
def toDecLE (fuel n : Nat) : List Nat :=
  match fuel with
  | 0 => []
  | f + 1 => if n < 10 then [n] else n % 10 :: toDecLE f (n / 10)

/-- Little-endian hexadecimal digit values of `n` (fuel-driven; `fuel ≥ n`). -/
def toHexLE (fuel n : Nat) : List Nat :=
  match fuel with
  | 0 => []
  | f + 1 => if n < 16 then [n] else n % 16 :: toHexLE f (n / 16)

/-- Character for a decimal digit value. -/
def digitChar (d : Nat) : Char := Char.ofNat (48 + d)

/-- Character for a hexadecimal digit value (lowercase letters). -/
def hexDigitChar (d : Nat) : Char :=
  if d < 10 then Char.ofNat (48 + d) else Char.ofNat (87 + d)

/-- Decimal rendering of a natural number (Rust `Display` for integers). -/
def natToDecChars (n : Nat) : List Char :=
  (toDecLE (n + 1) n).reverse.map digitChar

/-- Lowercase hexadecimal rendering of a natural number (Rust `LowerHex`,
used by `Ipv6Addr`'s `Display` for each group). -/
def natToHexChars (n : Nat) : List Char :=
  (toHexLE (n + 1) n).reverse.map hexDigitChar

/-! ### IP addresses (modelling Rust std / the `ip` crate) -/

/-- Modelled from Rust std `Ipv4Addr`: four octets. In Rust the octets are
`u8`; here they are `Nat`, with well-formedness `Ipv4Addr.wf`. -/
structure Ipv4Addr where
  a : Nat
  b : Nat
  c : Nat
  d : Nat
deriving DecidableEq, Repr

/-- Octets of an `Ipv4Addr` fit in 8 bits (the Rust `u8` type invariant). -/
def Ipv4Addr.wf (ip : Ipv4Addr) : Prop :=
  ip.a < 256 ∧ ip.b < 256 ∧ ip.c < 256 ∧ ip.d < 256

instance (ip : Ipv4Addr) : Decidable ip.wf := by
  unfold Ipv4Addr.wf; infer_instance

/-- Octet values of dot-separated groups: each must be a non-empty digit
string with value at most 255. -/
def parseOctets : List (List Char) → Option (List Nat)
  | [] => some []
  | g :: gs =>
    match (decValue? g).bind (fun n => if n ≤ 255 then some n else none) with
    | some n => (parseOctets gs).map (fun ns => n :: ns)
    | none => none

/-- Modelled from Rust std `Ipv4Addr::from_str`: four dot-separated decimal
octet groups, each a non-empty digit string with value at most 255. -/
def Ipv4Addr.parseChars (l : List Char) : Option Ipv4Addr :=
  match parseOctets (splitOnChar '.' l) with
  | some [a, b, c, d] => some ⟨a, b, c, d⟩
  | _ => none

/-- String-level IPv4 literal parse. -/
def Ipv4Addr.parse (s : String) : Option Ipv4Addr :=
  Ipv4Addr.parseChars s.data

/-- Decimal dotted-quad rendering (Rust `Display` for `Ipv4Addr`). -/
def Ipv4Addr.toChars (ip : Ipv4Addr) : List Char :=
  natToDecChars ip.a ++ '.' :: natToDecChars ip.b ++ '.' :: natToDecChars ip.c
    ++ '.' :: natToDecChars ip.d

/-- Rust `Ipv4Addr::to_string`. -/
def Ipv4Addr.toString (ip : Ipv4Addr) : String :=
  ⟨ip.toChars⟩

/-- Modelled from Rust std `Ipv6Addr`: eight 16-bit groups. In Rust the
groups are `u16`; here they are `Nat`, with well-formedness `Ipv6Addr.wf`. -/
structure Ipv6Addr where
  s0 : Nat
  s1 : Nat
  s2 : Nat
  s3 : Nat
  s4 : Nat
  s5 : Nat
  s6 : Nat
  s7 : Nat
deriving DecidableEq, Repr

/-- Groups of an `Ipv6Addr` fit in 16 bits (the Rust `u16` type invariant). -/
def Ipv6Addr.wf (ip : Ipv6Addr) : Prop :=
  ip.s0 < 65536 ∧ ip.s1 < 65536 ∧ ip.s2 < 65536 ∧ ip.s3 < 65536 ∧
  ip.s4 < 65536 ∧ ip.s5 < 65536 ∧ ip.s6 < 65536 ∧ ip.s7 < 65536

instance (ip : Ipv6Addr) : Decidable ip.wf := by
  unfold Ipv6Addr.wf; infer_instance

/-- Group list (big-endian) of an `Ipv6Addr`. -/
def Ipv6Addr.groups (ip : Ipv6Addr) : List Nat :=
  [ip.s0, ip.s1, ip.s2, ip.s3, ip.s4, ip.s5, ip.s6, ip.s7]

/-- Build an `Ipv6Addr` from exactly eight groups. -/
def ipv6OfList : List Nat → Option Ipv6Addr
  | [a, b, c, d, e, f, g, h] => some ⟨a, b, c, d, e, f, g, h⟩
  | _ => none

/-- One colon-separated IPv6 group: one to four hex digits. -/
def parseHexGroup (l : List Char) : Option Nat :=
  if l.length ≤ 4 then hexValue? l else none

/-- Groups before a `::`: plain hex groups only. -/
def parseGroupsFront : List (List Char) → Option (List Nat)
  | [] => some []
  | g :: gs =>
    match parseHexGroup g with
    | some w => (parseGroupsFront gs).map (fun ws => w :: ws)
    | none => none

/-- Groups after a `::` (or the whole list when there is no `::`): plain hex
groups, except that the final group may be an embedded dotted-quad IPv4,
contributing two 16-bit groups. -/
def parseGroupsBack : List (List Char) → Option (List Nat)
  | [] => some []
  | [g] =>
    (match parseHexGroup g with
     | some w => some [w]
     | none =>
       match Ipv4Addr.parseChars g with
       | some ip => some [ip.a * 256 + ip.b, ip.c * 256 + ip.d]
       | none => none)
  | g :: rest =>
    match parseHexGroup g with
    | some w => (parseGroupsBack rest).map (fun ws => w :: ws)
    | none => none

/-- Colon-separated parts of one side of a `::`; an empty side has no parts. -/
def colonParts (l : List Char) : List (List Char) :=
  if l.isEmpty then [] else splitOnChar ':' l

/-- Modelled from Rust std `Ipv6Addr::from_str`: either eight colon-separated
groups (the last possibly an embedded IPv4), or two such sequences joined by
a single `::` standing for at least one zero group. -/
def Ipv6Addr.parseChars (l : List Char) : Option Ipv6Addr :=
  match splitDColon l with
  | none =>
    match parseGroupsBack (splitOnChar ':' l) with
    | some ws => if ws.length = 8 then ipv6OfList ws else none
    | none => none
  | some (left, right) =>
    match parseGroupsFront (colonParts left), parseGroupsBack (colonParts right) with
    | some f, some b =>
      if f.length + b.length ≤ 7 then
        ipv6OfList (f ++ List.replicate (8 - f.length - b.length) 0 ++ b)
      else none
    | _, _ => none

/-- String-level IPv6 literal parse. -/
def Ipv6Addr.parse (s : String) : Option Ipv6Addr :=
  Ipv6Addr.parseChars s.data

/-- Join character-list segments with single colons. -/
def joinColon : List (List Char) → List Char
  | [] => []
  | [g] => g
  | g :: gs => g ++ ':' :: joinColon gs

/-- Colon-separated lowercase-hex rendering of all eight groups.  Rust's
`Display` compresses the longest zero run with `::`; this model renders the
uncompressed form, which `Ipv6Addr.parse` equally accepts, so the
parse-display round trip agrees with Rust's. -/
def Ipv6Addr.toChars (ip : Ipv6Addr) : List Char :=
  joinColon (ip.groups.map natToHexChars)

/-- Rust `Ipv6Addr::to_string` (see `Ipv6Addr.toChars`). -/
def Ipv6Addr.toString (ip : Ipv6Addr) : String :=
  ⟨ip.toChars⟩

/-- Modelled from the `ip` crate: an IP address, V4 or V6. -/
inductive IpAddr where
  | V4 (ip : Ipv4Addr) : IpAddr
  | V6 (ip : Ipv6Addr) : IpAddr
deriving DecidableEq, Repr

/-- Modelled from the `ip` crate: `IpAddr::from_str` tries IPv4 first, then
IPv6. -/
def IpAddr.parse (s : String) : Option IpAddr :=
  match Ipv4Addr.parse s with
  | some v4 => some (IpAddr.V4 v4)
  | none =>
    match Ipv6Addr.parse s with
    | some v6 => some (IpAddr.V6 v6)
    | none => none

/-! ### Socket addresses (modelling Rust std) -/

/-- Modelled from Rust std `SocketAddrV4`: IPv4 address and `u16` port
(ports are `Nat` here; parsing keeps them below 2 ^ 16). -/
structure SocketAddrV4 where
  ip : Ipv4Addr
  port : Nat
deriving DecidableEq, Repr

/-- Modelled from Rust std `SocketAddrV6`: IPv6 address, `u16` port, flow
info and scope id (the source always constructs these last two as 0). -/
structure SocketAddrV6 where
  ip : Ipv6Addr
  port : Nat
  flowinfo : Nat
  scope_id : Nat
deriving DecidableEq, Repr

/-- Modelled from Rust std `SocketAddr`. -/
inductive SocketAddr where
  | V4 (a : SocketAddrV4) : SocketAddr
  | V6 (a : SocketAddrV6) : SocketAddr
deriving DecidableEq, Repr

/-- Port of a socket address (`SocketAddr::port`). -/
def SocketAddr.port : SocketAddr → Nat
  | .V4 a => a.port
  | .V6 a => a.port

/-- Decimal `u16` value of a character list: digits only, value below 2^16
(the port field of Rust std's socket-address grammar). -/
def decValue16? (l : List Char) : Option Nat :=
  match decValue? l with
  | some n => if n < 65536 then some n else none
  | none => none

/-- Modelled from Rust std `SocketAddr::from_str`: either `v4:port`, or a
bracketed `[v6]:port`. -/
def SocketAddr.parse (s : String) : Option SocketAddr :=
  match s.data with
  | '[' :: rest =>
    (match splitRBracketColon rest with
     | some (inner, portCs) =>
       match Ipv6Addr.parseChars inner, decValue16? portCs with
       | some v6, some p => some (.V6 ⟨v6, p, 0, 0⟩)
       | _, _ => none
     | none => none)
  | l =>
    match splitOnChar ':' l with
    | [ipCs, portCs] =>
      (match Ipv4Addr.parseChars ipCs, decValue16? portCs with
       | some v4, some p => some (.V4 ⟨v4, p⟩)
       | _, _ => none)
    | _ => none

/-- Modelled from Rust std `u16::from_str`: an optional leading `+`, then a
non-empty digit string whose value fits in 16 bits. -/
def u16FromStr (s : String) : Option Nat :=
  let l := match s.data with
    | '+' :: rest => rest
    | l => l
  decValue16? l

/-! ### Domain model of `config.rs` -/

/-- Modelled from Rust std `Duration`: the source only ever builds durations
with `Duration::from_secs` and reads them with `as_secs`, so whole seconds
suffice. -/
structure Duration where
  secs : Nat
deriving DecidableEq, Repr

/-- Rust `Duration::from_secs`. -/
def Duration.from_secs (n : Nat) : Duration := ⟨n⟩

/-- Rust `Duration::as_secs`. -/
def Duration.as_secs (d : Duration) : Nat := d.secs

/-- Modelled from the spec: the cipher-name registry
(`crypto::cipher::CipherType`, an external collaborator not under `src/`)
exposing a string parse returning an option, and a `Display` name.  The
variants are the cipher names named by the spec's examples. -/
inductive CipherType where
  | aes_128_cfb : CipherType
  | aes_256_cfb : CipherType
  | bf_cfb : CipherType
  | rc4 : CipherType
deriving DecidableEq, Repr

/-- Modelled from the spec: `Display` name of a cipher. -/
def CipherType.toString : CipherType → String
  | .aes_128_cfb => "aes-128-cfb"
  | .aes_256_cfb => "aes-256-cfb"
  | .bf_cfb => "bf-cfb"
  | .rc4 => "rc4"

/-- Modelled from the spec: `parse(name) -> Option<CipherIdentifier>`. -/
def CipherType.parse (s : String) : Option CipherType :=
  if s = "aes-128-cfb" then some .aes_128_cfb
  else if s = "aes-256-cfb" then some .aes_256_cfb
  else if s = "bf-cfb" then some .bf_cfb
  else if s = "rc4" then some .rc4
  else none

/-- Server address: `ServerAddr` in the source. -/
inductive ServerAddr where
  | SocketAddr (a : SocketAddr) : ServerAddr
  | DomainName (name : String) (port : Nat) : ServerAddr
deriving DecidableEq, Repr

/-- Error from `FromStr for ServerAddr`: `ServerAddrError`. -/
inductive ServerAddrError where
  | mk : ServerAddrError
deriving DecidableEq, Repr

/-- Mirrors `impl FromStr for ServerAddr`: try a full socket-address parse;
otherwise split on `:` and read the first segment as a domain name and the
second as a `u16` port, discarding any later segments. -/
def ServerAddr.from_str (s : String) : Except ServerAddrError ServerAddr :=
  match SocketAddr.parse s with
  | some addr => .ok (ServerAddr.SocketAddr addr)
  | none =>
    let sp := splitOnChar ':' s.data
    match sp[0]?, sp[1]? with
    | some dn, some portCs =>
      (match u16FromStr ⟨portCs⟩ with
       | some port => .ok (ServerAddr.DomainName ⟨dn⟩ port)
       | none => .error ServerAddrError.mk)
    | _, _ => .error ServerAddrError.mk

/-- Configuration for one server: `ServerConfig` in the source. -/
structure ServerConfig where
  addr : ServerAddr
  password : String
  method : CipherType
  timeout : Option Duration
deriving DecidableEq, Repr

/-- Listening address: `type ClientConfig = SocketAddr`. -/
def ClientConfig : Type := SocketAddr

instance : DecidableEq ClientConfig := by
  unfold ClientConfig; infer_instance

instance : Repr ClientConfig := by
  unfold ClientConfig; infer_instance

/-- Server config type selector: `ConfigType` in the source. -/
inductive ConfigType where
  | Local : ConfigType
  | Server : ConfigType
deriving DecidableEq, Repr

/-- The root validated configuration: `Config` in the source.  `forbidden_ip`
is a `HashSet<IpAddr>` there; it is modelled as a duplicate-free list built
by `insertIp`, whose order carries no meaning.  The source field `local` is
named `localAddr` here because `local` is a Lean keyword. -/
structure Config where
  server : List ServerConfig
  localAddr : Option ClientConfig
  http_proxy : Option ClientConfig
  enable_udp : Bool
  timeout : Option Duration
  forbidden_ip : List IpAddr
  dns_cache_capacity : Nat
deriving DecidableEq, Repr

/-- Default DNS cache capacity (`DEFAULT_DNS_CACHE_CAPACITY`). -/
def DEFAULT_DNS_CACHE_CAPACITY : Nat := 128

/-- Mirrors `Config::new`. -/
def Config.new : Config :=
  { server := []
    localAddr := none
    http_proxy := none
    enable_udp := false
    timeout := none
    forbidden_ip := []
    dns_cache_capacity := DEFAULT_DNS_CACHE_CAPACITY }

/-- Configuration parsing error kind: `ErrorKind` in the source. -/
inductive ErrorKind where
  | MissingField : ErrorKind
  | Malformed : ErrorKind
  | Invalid : ErrorKind
  | JsonParsingError : ErrorKind
  | IoError : ErrorKind
deriving DecidableEq, Repr

/-- Configuration parsing error: `Error` in the source. -/
structure ConfigError where
  kind : ErrorKind
  desc : String
  detail : Option String
deriving DecidableEq, Repr

instance {ε α : Type} [DecidableEq ε] [DecidableEq α] : DecidableEq (Except ε α) := fun x y =>
  match x, y with
  | .ok a, .ok b =>
    if h : a = b then isTrue (by rw [h]) else isFalse (by intro hh; cases hh; exact h rfl)
  | .error a, .error b =>
    if h : a = b then isTrue (by rw [h]) else isFalse (by intro hh; cases hh; exact h rfl)
  | .ok _, .error _ => isFalse (by intro h; cases h)
  | .error _, .ok _ => isFalse (by intro h; cases h)

/-- Result of a computation that may also `panic!`: `ok`/`err` mirror Rust's
`Result`, and `panicked` records the panic message of a `panic!` call. -/
inductive PResult (α : Type) where
  | ok (val : α) : PResult α
  | err (e : ConfigError) : PResult α
  | panicked (msg : String) : PResult α
deriving DecidableEq, Repr

/-! ### `Config::parse_server` -/

/-- The `method` field chain of `Config::parse_server`: missing key is
`MissingField`, a non-string is `Malformed`, an unknown cipher name is
`Invalid` with the attempted name in the detail. -/
def parseMethodField (server : JsonObj) : Except ConfigError CipherType :=
  match jget server "method" with
  | none => .error ⟨.MissingField, "need to specify a method", none⟩
  | some m =>
    match m.as_string with
    | none => .error ⟨.Malformed, "`method` should be a string", none⟩
    | some method_str =>
      match CipherType.parse method_str with
      | some method => .ok method
      | none =>
        .error ⟨.Invalid, "not supported method",
                some ("`" ++ method_str ++ "` is not a supported method")⟩

/-- The `port` field chain of `Config::parse_server`: key `port` with
fallback `server_port`; `as_u64` then the unchecked Rust cast `as u16`,
modelled as `% 2 ^ 16`. -/
def parsePortField (server : JsonObj) : Except ConfigError Nat :=
  match (jget server "port").orElse (fun _ => jget server "server_port") with
  | none => .error ⟨.MissingField, "need to specify a server port", none⟩
  | some port_o =>
    match port_o.as_u64 with
    | some u => .ok (u % 65536)
    | none => .error ⟨.Malformed, "`port` should be an integer", none⟩

/-- The `address` field chain of `Config::parse_server`: key `address` with
fallback `server`; must be a string; then IPv4 literal, else IPv6 literal,
else a domain name carrying the string verbatim. -/
def parseAddrField (server : JsonObj) (port : Nat) : Except ConfigError ServerAddr :=
  match (jget server "address").orElse (fun _ => jget server "server") with
  | none => .error ⟨.MissingField, "need to specify a server address", none⟩
  | some addr_o =>
    match addr_o.as_string with
    | none => .error ⟨.Malformed, "`address` should be a string", none⟩
    | some addr_str =>
      match Ipv4Addr.parse addr_str with
      | some v4 => .ok (ServerAddr.SocketAddr (.V4 ⟨v4, port⟩))
      | none =>
        match Ipv6Addr.parse addr_str with
        | some v6 => .ok (ServerAddr.SocketAddr (.V6 ⟨v6, port, 0, 0⟩))
        | none => .ok (ServerAddr.DomainName addr_str port)

/-- The `password` field chain of `Config::parse_server`. -/
def parsePasswordField (server : JsonObj) : Except ConfigError String :=
  match jget server "password" with
  | none => .error ⟨.MissingField, "need to specify a password", none⟩
  | some pwd_o =>
    match pwd_o.as_string with
    | none => .error ⟨.Malformed, "`password` should be a string", none⟩
    | some s => .ok s

/-- The optional `timeout` field of `Config::parse_server` (whole seconds). -/
def parseTimeoutField (server : JsonObj) : Except ConfigError (Option Duration) :=
  match jget server "timeout" with
  | some t =>
    (match t.as_u64 with
     | some val => .ok (some (Duration.from_secs val))
     | none => .error ⟨.Malformed, "`timeout` should be an integer", none⟩)
  | none => .ok none

/-- Mirrors `Config::parse_server`: the five field chains in source order,
each `try!` short-circuiting on the first error. -/
def Config.parse_server (server : JsonObj) : Except ConfigError ServerConfig := do
  let method ← parseMethodField server
  let port ← parsePortField server
  let addr ← parseAddrField server port
  let password ← parsePasswordField server
  let timeout ← parseTimeoutField server
  .ok { addr := addr, password := password, method := method, timeout := timeout }

/-! ### `Config::parse_json_object` -/

/-- The global `timeout` field of `Config::parse_json_object`. -/
def parseGlobalTimeout (o : JsonObj) : Except ConfigError (Option Duration) :=
  match jget o "timeout" with
  | some t_str =>
    (match t_str.as_u64 with
     | some val => .ok (some (Duration.from_secs val))
     | none => .error ⟨.Malformed, "`timeout` should be an integer", none⟩)
  | none => .ok none

/-- The `for server in server_list` loop of `Config::parse_json_object`:
elements that are objects are parsed (first error aborts the whole load via
`try!`); other elements are skipped. -/
def parseServerList : List Json → Except ConfigError (List ServerConfig)
  | [] => .ok []
  | j :: rest =>
    match j.as_object with
    | some server => do
      let cfg ← Config.parse_server server
      let tail ← parseServerList rest
      .ok (cfg :: tail)
    | none => parseServerList rest

/-- The server-list resolution of `Config::parse_json_object`: a present
`servers` key must hold an array, whose elements are parsed by
`parseServerList`; otherwise, when all four legacy keys are present the root
object itself is parsed as one server; otherwise the list stays empty. -/
def parseServersStage (o : JsonObj) : Except ConfigError (List ServerConfig) :=
  if (jget o "servers").isSome then
    match (jget o "servers").bind Json.as_array with
    | none => .error ⟨.Malformed, "`servers` should be a list", none⟩
    | some server_list => parseServerList server_list
  else if (jget o "server").isSome && (jget o "server_port").isSome
      && (jget o "password").isSome && (jget o "method").isSome then
    (Config.parse_server o).map (fun c => [c])
  else
    .ok []

/-- One address/port pair block of `Config::parse_json_object` (the source
writes this block twice, once for `local_address`/`local_port` and once for
`local_http_address`/`local_http_port`, differing only in key names and
message texts): both keys present parses them — the address must be a
string holding an IPv4 or IPv6 literal, the port is `as_u64` then the
unchecked cast `as u16` (`% 2 ^ 16`); exactly one key present is a
`panic!`; neither leaves the field `None`. -/
def parseBindPair (o : JsonObj) (addrKey portKey : String)
    (strMsg portMsg ipMsg panicMsg : String) : PResult (Option ClientConfig) :=
  let hasAddr := (jget o addrKey).isSome
  let hasPort := (jget o portKey).isSome
  if hasAddr && hasPort then
    match jget o addrKey with
    | some local_addr =>
      (match local_addr.as_string with
       | none => .err ⟨.Malformed, strMsg, none⟩
       | some addr_str =>
         match (jget o portKey).bind Json.as_u64 with
         | none => .err ⟨.Malformed, portMsg, none⟩
         | some portU64 =>
           let port := portU64 % 65536
           match Ipv4Addr.parse addr_str with
           | some ip => .ok (some (SocketAddr.V4 ⟨ip, port⟩))
           | none =>
             match Ipv6Addr.parse addr_str with
             | some ip => .ok (some (SocketAddr.V6 ⟨ip, port, 0, 0⟩))
             | none => .err ⟨.Malformed, ipMsg, none⟩)
    | none => .ok none
  else if hasAddr ^^ hasPort then
    .panicked panicMsg
  else
    .ok none

/-- The `local_address`/`local_port` block of `Config::parse_json_object`. -/
def parseLocalStage (o : JsonObj) : PResult (Option ClientConfig) :=
  parseBindPair o "local_address" "local_port"
    "`local_address` should be a string"
    "`local_port` should be an integer"
    "`local_address` is not a valid IP address"
    "You have to provide `local_address` and `local_port` together"

/-- The `local_http_address`/`local_http_port` block of
`Config::parse_json_object`. -/
def parseHttpStage (o : JsonObj) : PResult (Option ClientConfig) :=
  parseBindPair o "local_http_address" "local_http_port"
    "`local_http_address` should be a string"
    "`local_http_port` should be an integer"
    "`local_http_address` is not a valid IP address"
    "You have to provide `local_http_address` and `local_http_port` together"

/-- Insertion into the forbidden-IP set (`HashSet` semantics: adding a
present element changes nothing). -/
def insertIp (s : List IpAddr) (ip : IpAddr) : List IpAddr :=
  if ip ∈ s then s else s ++ [ip]

/-- The `forbidden_ip` block of `Config::parse_json_object`: an absent key
leaves the set empty; a non-array value is `Malformed`; elements that are
not strings or fail the IP parse are skipped (`filter_map`), the rest are
accumulated into the set. -/
def parseForbiddenStage (o : JsonObj) : Except ConfigError (List IpAddr) :=
  match jget o "forbidden_ip" with
  | none => .ok []
  | some forbidden_ip_conf =>
    match forbidden_ip_conf.as_array with
    | none => .error ⟨.Malformed, "`forbidden_ip` should be a list", none⟩
    | some arr =>
      .ok ((arr.filterMap (fun x => x.as_string.bind IpAddr.parse)).foldl insertIp [])

/-- The `dns_cache_capacity` field of `Config::parse_json_object`. -/
def parseDnsCacheStage (o : JsonObj) : Except ConfigError Nat :=
  match jget o "dns_cache_capacity" with
  | some t =>
    (match t.as_u64 with
     | some n => .ok n
     | none => .error ⟨.Malformed, "`dns_cache_capacity` should be an integer", none⟩)
  | none => .ok DEFAULT_DNS_CACHE_CAPACITY

/-- Mirrors `Config::parse_json_object`: the stages run in source order
(global timeout, server list, local pair and HTTP pair when
`require_local_info`, forbidden IPs, DNS cache capacity), the first error or
panic aborting the load. -/
def Config.parse_json_object (o : JsonObj) (require_local_info : Bool) : PResult Config :=
  match parseGlobalTimeout o with
  | .error e => .err e
  | .ok timeout =>
  match parseServersStage o with
  | .error e => .err e
  | .ok server =>
  match (if require_local_info then parseLocalStage o else .ok none) with
  | .err e => .err e
  | .panicked msg => .panicked msg
  | .ok localAddr =>
  match (if require_local_info then parseHttpStage o else .ok none) with
  | .err e => .err e
  | .panicked msg => .panicked msg
  | .ok http_proxy =>
  match parseForbiddenStage o with
  | .error e => .err e
  | .ok forbidden_ip =>
  match parseDnsCacheStage o with
  | .error e => .err e
  | .ok dns_cache_capacity =>
    .ok { server := server
          localAddr := localAddr
          http_proxy := http_proxy
          enable_udp := false
          timeout := timeout
          forbidden_ip := forbidden_ip
          dns_cache_capacity := dns_cache_capacity }

/-- Mirrors the `config_type` match of `Config::load_from_str` and
`Config::load_from_file`: `Local` requires local info, `Server` does not. -/
def ConfigType.require_local_info : ConfigType → Bool
  | .Local => true
  | .Server => false

/-! ### Serializer (`ToJson` for `ServerConfig` and `Config`) -/

/-- Mirrors `ServerAddr::to_json_object_inner`. -/
def ServerAddr.to_json_object_inner (addr : ServerAddr) (obj : JsonObj)
    (addr_key port_key : String) : JsonObj :=
  match addr with
  | .SocketAddr (.V4 v4) =>
    objInsert (objInsert obj addr_key (.str v4.ip.toString)) port_key (.u64 v4.port)
  | .SocketAddr (.V6 v6) =>
    objInsert (objInsert obj addr_key (.str v6.ip.toString)) port_key (.u64 v6.port)
  | .DomainName domain port =>
    objInsert (objInsert obj addr_key (.str domain)) port_key (.u64 port)

/-- Mirrors `ServerAddr::to_json_object` (modern key names). -/
def ServerAddr.to_json_object (addr : ServerAddr) (obj : JsonObj) : JsonObj :=
  addr.to_json_object_inner obj "address" "port"

/-- Mirrors `ServerAddr::to_json_object_old` (legacy key names). -/
def ServerAddr.to_json_object_old (addr : ServerAddr) (obj : JsonObj) : JsonObj :=
  addr.to_json_object_inner obj "server" "server_port"

/-- Mirrors `ToJson for ServerConfig`. -/
def ServerConfig.to_json (s : ServerConfig) : Json :=
  let obj : JsonObj := []
  let obj := s.addr.to_json_object obj
  let obj := objInsert obj "password" (.str s.password)
  let obj := objInsert obj "method" (.str s.method.toString)
  let obj :=
    match s.timeout with
    | some t => objInsert obj "timeout" (.u64 t.as_secs)
    | none => obj
  Json.obj obj

/-- Mirrors `ToJson for Config`: one server emits the legacy shape, any
other count emits a `servers` array; a set local address adds
`local_address`/`local_port`; `enable_udp` and `dns_cache_capacity` are
always emitted. -/
def Config.to_json (c : Config) : Json :=
  let obj : JsonObj := []
  let obj :=
    match c.server with
    | [server] =>
      let obj := server.addr.to_json_object_old obj
      let obj := objInsert obj "password" (.str server.password)
      let obj := objInsert obj "method" (.str server.method.toString)
      (match server.timeout with
       | some t => objInsert obj "timeout" (.u64 t.as_secs)
       | none => obj)
    | _ => objInsert obj "servers" (.arr (c.server.map ServerConfig.to_json))
  let obj :=
    match c.localAddr with
    | some l =>
      let ip_str :=
        match l with
        | .V4 v4 => v4.ip.toString
        | .V6 v6 => v6.ip.toString
      objInsert (objInsert obj "local_address" (.str ip_str)) "local_port"
        (.u64 (SocketAddr.port l))
    | none => obj
  let obj := objInsert obj "enable_udp" (.boolean c.enable_udp)
  let obj := objInsert obj "dns_cache_capacity" (.u64 c.dns_cache_capacity)
  Json.obj obj

/-- Presence of two adjacent colons (the condition under which
`splitDColon` finds a `::`). -/
def hasDColon : List Char → Bool
  | [] => false
  | [_] => false
  | a :: b :: rest =>
    if a = ':' ∧ b = ':' then true else hasDColon (b :: rest)

/-- Conditions under which a serialized `ServerAddr` reloads to itself: the
Rust integer type invariants (octets in 8 bits, groups and ports in 16
bits), a V6 flow info and scope id of 0 (the serializer drops them and the
parser zeroes them), and a domain-name string that does not itself parse as
an IP literal (such a string would reload as the `SocketAddr` variant). -/
def ServerAddr.roundtrip_safe : ServerAddr → Prop
  | .SocketAddr (.V4 a) => a.ip.wf ∧ a.port < 65536
  | .SocketAddr (.V6 a) => a.ip.wf ∧ a.port < 65536 ∧ a.flowinfo = 0 ∧ a.scope_id = 0
  | .DomainName d p => p < 65536 ∧ Ipv4Addr.parse d = none ∧ Ipv6Addr.parse d = none

instance (a : ServerAddr) : Decidable a.roundtrip_safe := by
  unfold ServerAddr.roundtrip_safe
  cases a with
  | SocketAddr sa => cases sa <;> infer_instance
  | DomainName d p => infer_instance

/-! ### Reduction lemmas for `Except` binds -/

theorem except_bind_ok {ε α β : Type} (a : α) (f : α → Except ε β) :
    (Bind.bind (Except.ok a) f : Except ε β) = f a := rfl

theorem except_bind_error {ε α β : Type} (e : ε) (f : α → Except ε β) :
    (Bind.bind (Except.error e) f : Except ε β) = Except.error e := rfl

/-- C2 (amended): the port value (key `port`, or fallback `server_port`)
yields `MissingField` when both keys are absent and `Malformed` when the
value is not an unsigned integer; an unsigned integer is reduced modulo
2 ^ 16 by the unchecked `as u16` cast (values above 65535 wrap rather than
erroring), and a port-field error short-circuits the whole server parse. -/
theorem claim_C2 (o : JsonObj) :
    ((jget o "port").orElse (fun _ => jget o "server_port") = none →
      parsePortField o = .error ⟨.MissingField, "need to specify a server port", none⟩) ∧
    (∀ j, (jget o "port").orElse (fun _ => jget o "server_port") = some j →
      j.as_u64 = none →
      parsePortField o = .error ⟨.Malformed, "`port` should be an integer", none⟩) ∧
    (∀ j n, (jget o "port").orElse (fun _ => jget o "server_port") = some j →
      j.as_u64 = some n → parsePortField o = .ok (n % 65536)) ∧
    (∀ m e, parseMethodField o = .ok m → parsePortField o = .error e →
      Config.parse_server o = .error e) := by
  refine ⟨?_, ?_, ?_, ?_⟩
  · intro h
    simp [parsePortField, h]
  · intro j hj hu
    simp [parsePortField, hj, hu]
  · intro j n hj hu
    simp [parsePortField, hj, hu]
  · intro m e hm hp
    unfold Config.parse_server
    simp only [hm, hp, except_bind_ok, except_bind_error]

/-- C2 witness: a missing port, a string port and a wrapping port 65537, all
through `claim_C2` at concrete objects. -/
theorem claim_C2_witness :
    parsePortField [("method", Json.str "x")] =
      .error ⟨.MissingField, "need to specify a server port", none⟩ ∧
    parsePortField [("port", Json.str "x")] =
      .error ⟨.Malformed, "`port` should be an integer", none⟩ ∧
    parsePortField [("port", Json.u64 65537)] = .ok 1 ∧
    Config.parse_server [("method", Json.str "rc4"), ("port", Json.str "x")] =
      .error ⟨.Malformed, "`port` should be an integer", none⟩ := by
  refine ⟨?_, ?_, ?_, ?_⟩
  · exact (claim_C2 [("method", Json.str "x")]).1 rfl
  · exact (claim_C2 [("port", Json.str "x")]).2.1 (Json.str "x") rfl rfl
  · exact (claim_C2 [("port", Json.u64 65537)]).2.2.1 (Json.u64 65537) 65537 rfl rfl
  · exact (claim_C2 [("method", Json.str "rc4"), ("port", Json.str "x")]).2.2.2
      CipherType.rc4 ⟨.Malformed, "`port` should be an integer", none⟩ (by decide)
      ((claim_C2 [("method", Json.str "rc4"), ("port", Json.str "x")]).2.1
        (Json.str "x") rfl rfl)

/-- C2 counterexample: a `port` of 65537 (not representable in 16 bits) does
not produce a `Malformed` error; the server parses successfully with the
wrapped port 1. -/
theorem claim_C2_counterexample :
    Config.parse_server
        [("method", Json.str "aes-256-cfb"), ("port", Json.u64 65537),
         ("address", Json.str "e.com"), ("password", Json.str "p")] =
      .ok { addr := .DomainName "e.com" 1, password := "p",
            method := .aes_256_cfb, timeout := none } := by
  decide

/-- C7: a missing `method` key yields `MissingField`, a non-string `method`
yields `Malformed`, and a string unknown to the cipher registry yields
`Invalid` with the attempted name inside the detail string; in each case the
error is the result of the whole server parse (short-circuit). -/
theorem claim_C7 (o : JsonObj) :
    (jget o "method" = none →
      Config.parse_server o = .error ⟨.MissingField, "need to specify a method", none⟩) ∧
    (∀ j, jget o "method" = some j → j.as_string = none →
      Config.parse_server o = .error ⟨.Malformed, "`method` should be a string", none⟩) ∧
    (∀ s, jget o "method" = some (Json.str s) → CipherType.parse s = none →
      Config.parse_server o = .error
        ⟨.Invalid, "not supported method", some ("`" ++ s ++ "` is not a supported method")⟩) := by
  refine ⟨?_, ?_, ?_⟩
  · intro h
    have hm : parseMethodField o = .error ⟨.MissingField, "need to specify a method", none⟩ := by
      simp [parseMethodField, h]
    unfold Config.parse_server
    simp only [hm, except_bind_error]
  · intro j hj hs
    have hm : parseMethodField o = .error ⟨.Malformed, "`method` should be a string", none⟩ := by
      simp [parseMethodField, hj, hs]
    unfold Config.parse_server
    simp only [hm, except_bind_error]
  · intro s hj hc
    have hm : parseMethodField o = .error
        ⟨.Invalid, "not supported method", some ("`" ++ s ++ "` is not a supported method")⟩ := by
      simp [parseMethodField, hj, Json.as_string, hc]
    unfold Config.parse_server
    simp only [hm, except_bind_error]

/-- C7 witness: the three failure shapes through `claim_C7`, including the
spec's `not-a-cipher` example with its name in the detail. -/
theorem claim_C7_witness :
    Config.parse_server [] = .error ⟨.MissingField, "need to specify a method", none⟩ ∧
    Config.parse_server [("method", Json.u64 1)] =
      .error ⟨.Malformed, "`method` should be a string", none⟩ ∧
    Config.parse_server [("method", Json.str "not-a-cipher")] =
      .error ⟨.Invalid, "not supported method",
              some "`not-a-cipher` is not a supported method"⟩ := by
  refine ⟨?_, ?_, ?_⟩
  · exact (claim_C7 []).1 rfl
  · exact (claim_C7 [("method", Json.u64 1)]).2.1 (Json.u64 1) rfl rfl
  · exact (claim_C7 [("method", Json.str "not-a-cipher")]).2.2 "not-a-cipher" rfl rfl

/-- C3: when the address value (key `address`, or fallback `server`) is a
string, the address step never fails: an IPv4 literal gives the V4 socket
variant, otherwise an IPv6 literal gives the V6 socket variant, and any
other string gives `DomainName` carrying the string verbatim with the
already-parsed port. -/
theorem claim_C3 (o : JsonObj) (port : Nat) (s : String)
    (h : (jget o "address").orElse (fun _ => jget o "server") = some (Json.str s)) :
    (∃ a, parseAddrField o port = .ok a) ∧
    (∀ v4, Ipv4Addr.parse s = some v4 →
      parseAddrField o port = .ok (.SocketAddr (.V4 ⟨v4, port⟩))) ∧
    (Ipv4Addr.parse s = none → ∀ v6, Ipv6Addr.parse s = some v6 →
      parseAddrField o port = .ok (.SocketAddr (.V6 ⟨v6, port, 0, 0⟩))) ∧
    (Ipv4Addr.parse s = none → Ipv6Addr.parse s = none →
      parseAddrField o port = .ok (.DomainName s port)) := by
  refine ⟨?_, ?_, ?_, ?_⟩
  · cases hv4 : Ipv4Addr.parse s with
    | some v4 =>
      exact ⟨.SocketAddr (.V4 ⟨v4, port⟩), by simp [parseAddrField, h, Json.as_string, hv4]⟩
    | none =>
      cases hv6 : Ipv6Addr.parse s with
      | some v6 =>
        exact ⟨.SocketAddr (.V6 ⟨v6, port, 0, 0⟩),
          by simp [parseAddrField, h, Json.as_string, hv4, hv6]⟩
      | none =>
        exact ⟨.DomainName s port, by simp [parseAddrField, h, Json.as_string, hv4, hv6]⟩
  · intro v4 hv4
    simp [parseAddrField, h, Json.as_string, hv4]
  · intro hv4 v6 hv6
    simp [parseAddrField, h, Json.as_string, hv4, hv6]
  · intro hv4 hv6
    simp [parseAddrField, h, Json.as_string, hv4, hv6]

/-- C3 witness: an IPv4 literal, an IPv6 literal and a domain name through
`claim_C3` at concrete objects. -/
theorem claim_C3_witness :
    parseAddrField [("address", Json.str "10.0.0.1")] 8388 =
      .ok (.SocketAddr (.V4 ⟨⟨10, 0, 0, 1⟩, 8388⟩)) ∧
    parseAddrField [("server", Json.str "::1")] 443 =
      .ok (.SocketAddr (.V6 ⟨⟨0, 0, 0, 0, 0, 0, 0, 1⟩, 443, 0, 0⟩)) ∧
    parseAddrField [("address", Json.str "example.com")] 443 =
      .ok (.DomainName "example.com" 443) := by
  refine ⟨?_, ?_, ?_⟩
  · exact (claim_C3 [("address", Json.str "10.0.0.1")] 8388 "10.0.0.1" rfl).2.1 _ (by decide)
  · exact (claim_C3 [("server", Json.str "::1")] 443 "::1" rfl).2.2.1 (by decide) _ (by decide)
  · exact (claim_C3 [("address", Json.str "example.com")] 443 "example.com" rfl).2.2.2
      (by decide) (by decide)

/-- C1: a present `servers` key is used exclusively (the result is a
function of its array alone, so legacy top-level server fields are ignored),
a non-array `servers` value is `Malformed`; with `servers` absent the root
is parsed as a single legacy server exactly when all four legacy keys are
present, and otherwise the stage succeeds with an empty server list. -/
theorem claim_C1 (o : JsonObj) :
    (∀ l, jget o "servers" = some (Json.arr l) → parseServersStage o = parseServerList l) ∧
    (∀ j, jget o "servers" = some j → j.as_array = none →
      parseServersStage o = .error ⟨.Malformed, "`servers` should be a list", none⟩) ∧
    (jget o "servers" = none → (jget o "server").isSome = true →
      (jget o "server_port").isSome = true → (jget o "password").isSome = true →
      (jget o "method").isSome = true →
      parseServersStage o = (Config.parse_server o).map (fun c => [c])) ∧
    (jget o "servers" = none →
      ((jget o "server").isSome && (jget o "server_port").isSome &&
        (jget o "password").isSome && (jget o "method").isSome) = false →
      parseServersStage o = .ok []) := by
  refine ⟨?_, ?_, ?_, ?_⟩
  · intro l hl
    simp [parseServersStage, hl, Json.as_array, Option.bind]
  · intro j hj ha
    simp [parseServersStage, hj, ha, Option.bind]
  · intro h0 h1 h2 h3 h4
    simp [parseServersStage, h0, h1, h2, h3, h4]
  · intro h0 hfalse
    simp only [parseServersStage, h0, Option.isSome_none, Bool.false_eq_true, if_false,
      hfalse, ite_false]

/-- C1 witness: the four shapes through `claim_C1` — `servers` overriding
present legacy keys, a non-array `servers`, the pure legacy shape, and a
root with too few legacy keys. -/
theorem claim_C1_witness :
    parseServersStage
        [("servers", Json.arr []), ("server", Json.str "1.2.3.4"),
         ("server_port", Json.u64 1), ("password", Json.str "p"),
         ("method", Json.str "rc4")] = .ok [] ∧
    parseServersStage [("servers", Json.u64 3)] =
      .error ⟨.Malformed, "`servers` should be a list", none⟩ ∧
    parseServersStage
        [("server", Json.str "10.0.0.1"), ("server_port", Json.u64 8388),
         ("password", Json.str "p"), ("method", Json.str "aes-256-cfb")] =
      .ok [{ addr := .SocketAddr (.V4 ⟨⟨10, 0, 0, 1⟩, 8388⟩), password := "p",
             method := .aes_256_cfb, timeout := none }] ∧
    parseServersStage [("server", Json.str "10.0.0.1")] = .ok [] := by
  refine ⟨?_, ?_, ?_, ?_⟩
  · exact ((claim_C1
      [("servers", Json.arr []), ("server", Json.str "1.2.3.4"),
       ("server_port", Json.u64 1), ("password", Json.str "p"),
       ("method", Json.str "rc4")]).1 [] rfl).trans rfl
  · exact (claim_C1 [("servers", Json.u64 3)]).2.1 (Json.u64 3) rfl rfl
  · exact ((claim_C1
      [("server", Json.str "10.0.0.1"), ("server_port", Json.u64 8388),
       ("password", Json.str "p"), ("method", Json.str "aes-256-cfb")]).2.2.1
      rfl rfl rfl rfl rfl).trans (by decide)
  · exact (claim_C1 [("server", Json.str "10.0.0.1")]).2.2.2 rfl rfl

/-- C5: if every array element that is an object parses successfully, the
server loop yields exactly the parses of the object elements in array
order, and a non-object element is silently skipped. -/
theorem claim_C5 (l : List Json) (cs : List ServerConfig)
    (h : (l.filterMap Json.as_object).map Config.parse_server = cs.map Except.ok) :
    parseServerList l = .ok cs ∧
    ∀ j, j.as_object = none → parseServerList (j :: l) = parseServerList l := by
  constructor
  · induction l generalizing cs with
    | nil =>
      have hcs : cs = [] := by simpa using h.symm
      subst hcs
      rfl
    | cons j rest ih =>
      cases hj : j.as_object with
      | none =>
        simp only [List.filterMap_cons, hj] at h
        have := ih cs h
        simpa [parseServerList, hj] using this
      | some ob =>
        simp only [List.filterMap_cons, hj] at h
        cases cs with
        | nil => simp at h
        | cons c cs2 =>
          simp only [List.map_cons, List.cons.injEq] at h
          obtain ⟨h1, h2⟩ := h
          have hrest := ih cs2 h2
          simp [parseServerList, hj, h1, hrest, except_bind_ok]
  · intro j hj
    simp [parseServerList, hj]

/-- C5 witness: a three-element `servers` array whose middle element is a
number, through `claim_C5` — two servers come back, in order. -/
theorem claim_C5_witness :
    parseServerList
        [Json.obj [("address", Json.str "example.com"), ("port", Json.u64 443),
                   ("password", Json.str "p"), ("method", Json.str "aes-128-cfb")],
         Json.u64 7,
         Json.obj [("address", Json.str "10.0.0.1"), ("port", Json.u64 8388),
                   ("password", Json.str "q"), ("method", Json.str "rc4")]] =
      .ok [{ addr := .DomainName "example.com" 443, password := "p",
             method := .aes_128_cfb, timeout := none },
           { addr := .SocketAddr (.V4 ⟨⟨10, 0, 0, 1⟩, 8388⟩), password := "q",
             method := .rc4, timeout := none }] ∧
    parseServerList (Json.u64 7 :: [Json.boolean true]) = parseServerList [Json.boolean true] := by
  constructor
  · exact (claim_C5 _ _ (by decide)).1
  · exact (claim_C5 [Json.boolean true] [] (by decide)).2 (Json.u64 7) rfl

/-- Membership and duplicate-freedom of the forbidden-IP fold. -/
theorem foldl_insertIp (l : List IpAddr) (init : List IpAddr) (hn : init.Nodup) :
    (l.foldl insertIp init).Nodup ∧
    ∀ ip, ip ∈ l.foldl insertIp init ↔ ip ∈ init ∨ ip ∈ l := by
  induction l generalizing init with
  | nil => exact ⟨hn, by simp⟩
  | cons x rest ih =>
    have hins : (insertIp init x).Nodup := by
      unfold insertIp
      split
      · exact hn
      · rename_i hx
        simp [List.nodup_append, hn, hx]
    have hmem : ∀ ip, ip ∈ insertIp init x ↔ ip ∈ init ∨ ip = x := by
      intro ip
      unfold insertIp
      split
      · rename_i hx
        constructor
        · exact fun h => Or.inl h
        · rintro (h | rfl)
          · exact h
          · exact hx
      · simp
    obtain ⟨hnd, hm⟩ := ih (insertIp init x) hins
    refine ⟨hnd, ?_⟩
    intro ip
    rw [List.foldl_cons, hm ip, hmem ip]
    simp only [List.mem_cons]
    tauto

/-- C8: a non-array `forbidden_ip` is a `Malformed` error; an array makes the
stage succeed with a duplicate-free set whose members are exactly the IP
parses of the string elements (non-strings and unparseable strings are
skipped). -/
theorem claim_C8 (o : JsonObj) :
    (∀ j, jget o "forbidden_ip" = some j → j.as_array = none →
      parseForbiddenStage o = .error ⟨.Malformed, "`forbidden_ip` should be a list", none⟩) ∧
    (∀ l, jget o "forbidden_ip" = some (Json.arr l) →
      ∃ s, parseForbiddenStage o = .ok s ∧ s.Nodup ∧
        ∀ ip, ip ∈ s ↔ ∃ x ∈ l, x.as_string.bind IpAddr.parse = some ip) := by
  constructor
  · intro j hj ha
    simp [parseForbiddenStage, hj, ha]
  · intro l hl
    refine ⟨(l.filterMap (fun x => x.as_string.bind IpAddr.parse)).foldl insertIp [],
      by simp [parseForbiddenStage, hl, Json.as_array], ?_, ?_⟩
    · exact (foldl_insertIp _ [] (by simp)).1
    · intro ip
      rw [(foldl_insertIp _ [] (by simp)).2 ip]
      simp [List.mem_filterMap]

/-- C8 witness: a non-array value, and the spec's example of one valid IP
string next to a non-string element, through `claim_C8`. -/
theorem claim_C8_witness :
    parseForbiddenStage [("forbidden_ip", Json.u64 1)] =
      .error ⟨.Malformed, "`forbidden_ip` should be a list", none⟩ ∧
    ∃ s, parseForbiddenStage [("forbidden_ip", Json.arr [Json.str "127.0.0.1", Json.u64 5])] =
        .ok s ∧ s.Nodup ∧
      ∀ ip, ip ∈ s ↔ ∃ x ∈ [Json.str "127.0.0.1", Json.u64 5],
        x.as_string.bind IpAddr.parse = some ip :=
  ⟨(claim_C8 [("forbidden_ip", Json.u64 1)]).1 (Json.u64 1) rfl rfl,
   (claim_C8 [("forbidden_ip", Json.arr [Json.str "127.0.0.1", Json.u64 5])]).2 _ rfl⟩

/-- C9: `ServerAddr::from_str` returns the `SocketAddr` variant whenever the
whole string parses as a socket address; otherwise it splits on `:` and,
given at least two segments whose second parses as a `u16`, returns
`DomainName` of the first segment and that port, discarding the remaining
segments; a failing `u16` parse or a single segment is an error. -/
theorem claim_C9 (s : String) :
    (∀ a, SocketAddr.parse s = some a → ServerAddr.from_str s = .ok (.SocketAddr a)) ∧
    (SocketAddr.parse s = none →
      ∀ dn portCs rest, splitOnChar ':' s.data = dn :: portCs :: rest →
        (∀ p, u16FromStr ⟨portCs⟩ = some p →
          ServerAddr.from_str s = .ok (.DomainName ⟨dn⟩ p)) ∧
        (u16FromStr ⟨portCs⟩ = none → ServerAddr.from_str s = .error .mk)) ∧
    (SocketAddr.parse s = none → ∀ dn, splitOnChar ':' s.data = [dn] →
      ServerAddr.from_str s = .error .mk) := by
  refine ⟨?_, ?_, ?_⟩
  · intro a ha
    simp [ServerAddr.from_str, ha]
  · intro hn dn portCs rest hsp
    constructor
    · intro p hp
      simp [ServerAddr.from_str, hn, hsp, hp]
    · intro hp
      simp [ServerAddr.from_str, hn, hsp, hp]
  · intro hn dn hsp
    simp [ServerAddr.from_str, hn, hsp]

/-- C9 witness: a socket address, a domain with a trailing discarded
segment, a bad port and a colon-free string, through `claim_C9`. -/
theorem claim_C9_witness :
    ServerAddr.from_str "1.2.3.4:80" = .ok (.SocketAddr (.V4 ⟨⟨1, 2, 3, 4⟩, 80⟩)) ∧
    ServerAddr.from_str "example.com:80:junk" = .ok (.DomainName "example.com" 80) ∧
    ServerAddr.from_str "a:x" = .error .mk ∧
    ServerAddr.from_str "noport" = .error .mk := by
  refine ⟨?_, ?_, ?_, ?_⟩
  · exact (claim_C9 "1.2.3.4:80").1 _ (by decide)
  · exact ((claim_C9 "example.com:80:junk").2.1 (by decide) "example.com".data "80".data
      ["junk".data] (by decide)).1 80 (by decide)
  · exact ((claim_C9 "a:x").2.1 (by decide) "a".data "x".data [] (by decide)).2 (by decide)
  · exact (claim_C9 "noport").2.2 (by decide) "noport".data (by decide)

/-- Reduction of one bind-pair block when both keys hold a string address
and an unsigned-integer port: the port is taken modulo 2 ^ 16. -/
theorem parseBindPair_mod (o : JsonObj) (aK pK m1 m2 m3 m4 : String) (s : String) (n : Nat)
    (ha : jget o aK = some (Json.str s)) (hp : jget o pK = some (Json.u64 n)) :
    (∀ ip, Ipv4Addr.parse s = some ip →
      parseBindPair o aK pK m1 m2 m3 m4 = .ok (some (SocketAddr.V4 ⟨ip, n % 65536⟩))) ∧
    (Ipv4Addr.parse s = none → ∀ ip, Ipv6Addr.parse s = some ip →
      parseBindPair o aK pK m1 m2 m3 m4 =
        .ok (some (SocketAddr.V6 ⟨ip, n % 65536, 0, 0⟩))) := by
  constructor
  · intro ip hip
    simp [parseBindPair, ha, hp, Json.as_string, Json.as_u64, hip]
  · intro h4 ip hip
    simp [parseBindPair, ha, hp, Json.as_string, Json.as_u64, h4, hip]

/-- C10: with both keys of a bind pair present, a string address and an
unsigned-integer port value n, the loaded bind port is n reduced modulo
2 ^ 16 by the unchecked `as u16` cast, with no error — for the
`local_address`/`local_port` pair and the `local_http_*` pair alike. -/
theorem claim_C10 (o : JsonObj) (s : String) (n : Nat) :
    (jget o "local_address" = some (Json.str s) →
      jget o "local_port" = some (Json.u64 n) →
      (∀ ip, Ipv4Addr.parse s = some ip →
        parseLocalStage o = .ok (some (SocketAddr.V4 ⟨ip, n % 65536⟩))) ∧
      (Ipv4Addr.parse s = none → ∀ ip, Ipv6Addr.parse s = some ip →
        parseLocalStage o = .ok (some (SocketAddr.V6 ⟨ip, n % 65536, 0, 0⟩)))) ∧
    (jget o "local_http_address" = some (Json.str s) →
      jget o "local_http_port" = some (Json.u64 n) →
      (∀ ip, Ipv4Addr.parse s = some ip →
        parseHttpStage o = .ok (some (SocketAddr.V4 ⟨ip, n % 65536⟩))) ∧
      (Ipv4Addr.parse s = none → ∀ ip, Ipv6Addr.parse s = some ip →
        parseHttpStage o = .ok (some (SocketAddr.V6 ⟨ip, n % 65536, 0, 0⟩)))) := by
  constructor
  · intro ha hp
    exact parseBindPair_mod o _ _ _ _ _ _ s n ha hp
  · intro ha hp
    exact parseBindPair_mod o _ _ _ _ _ _ s n ha hp

/-- C10 witness: `local_port` 65537 silently becomes port 1 and
`local_http_port` 65538 becomes port 2, through `claim_C10`. -/
theorem claim_C10_witness :
    parseLocalStage
        [("local_address", Json.str "127.0.0.1"), ("local_port", Json.u64 65537),
         ("local_http_address", Json.str "::1"), ("local_http_port", Json.u64 65538)] =
      .ok (some (SocketAddr.V4 ⟨⟨127, 0, 0, 1⟩, 1⟩)) ∧
    parseHttpStage
        [("local_address", Json.str "127.0.0.1"), ("local_port", Json.u64 65537),
         ("local_http_address", Json.str "::1"), ("local_http_port", Json.u64 65538)] =
      .ok (some (SocketAddr.V6 ⟨⟨0, 0, 0, 0, 0, 0, 0, 1⟩, 2, 0, 0⟩)) := by
  constructor
  · exact ((claim_C10
      [("local_address", Json.str "127.0.0.1"), ("local_port", Json.u64 65537),
       ("local_http_address", Json.str "::1"), ("local_http_port", Json.u64 65538)]
      "127.0.0.1" 65537).1 rfl rfl).1 ⟨127, 0, 0, 1⟩ (by decide)
  · exact ((claim_C10
      [("local_address", Json.str "127.0.0.1"), ("local_port", Json.u64 65537),
       ("local_http_address", Json.str "::1"), ("local_http_port", Json.u64 65538)]
      "::1" 65538).2 rfl rfl).2 (by decide) ⟨0, 0, 0, 0, 0, 0, 0, 1⟩ (by decide)

/-- C4 counterexample: a root object containing exactly one of
`local_address`/`local_port` but also a malformed global `timeout` makes the
Local-mode load return a typed `Malformed` error — not a panic — because
the timeout stage runs first. -/
theorem claim_C4_counterexample :
    Config.parse_json_object
        [("timeout", Json.str "x"), ("local_address", Json.str "127.0.0.1")] true =
      .err ⟨.Malformed, "`timeout` should be an integer", none⟩ := by
  decide

/-- C4 (amended): under Local mode, provided the stages that run earlier in
the load (global timeout, server list) succeed, exactly one key of the
`local_address`/`local_port` pair present makes the load panic rather than
return a typed error; when both are present, a string address that is
neither an IPv4 nor an IPv6 literal is a `Malformed` error; the
`local_http_*` pair behaves the same once the local pair stage has also
succeeded. -/
theorem claim_C4 (o : JsonObj) (t : Option Duration) (srv : List ServerConfig)
    (ht : parseGlobalTimeout o = .ok t) (hs : parseServersStage o = .ok srv) :
    (((jget o "local_address").isSome ^^ (jget o "local_port").isSome) = true →
      Config.parse_json_object o true =
        .panicked "You have to provide `local_address` and `local_port` together") ∧
    (∀ s n, jget o "local_address" = some (Json.str s) →
      (jget o "local_port").bind Json.as_u64 = some n →
      Ipv4Addr.parse s = none → Ipv6Addr.parse s = none →
      Config.parse_json_object o true =
        .err ⟨.Malformed, "`local_address` is not a valid IP address", none⟩) ∧
    (∀ v, parseLocalStage o = .ok v →
      (((jget o "local_http_address").isSome ^^ (jget o "local_http_port").isSome) = true →
        Config.parse_json_object o true =
          .panicked "You have to provide `local_http_address` and `local_http_port` together") ∧
      (∀ s n, jget o "local_http_address" = some (Json.str s) →
        (jget o "local_http_port").bind Json.as_u64 = some n →
        Ipv4Addr.parse s = none → Ipv6Addr.parse s = none →
        Config.parse_json_object o true =
          .err ⟨.Malformed, "`local_http_address` is not a valid IP address", none⟩)) := by
  refine ⟨?_, ?_, ?_⟩
  · intro hxor
    have hand : ((jget o "local_address").isSome && (jget o "local_port").isSome) = false := by
      cases hA : (jget o "local_address").isSome <;>
        cases hP : (jget o "local_port").isSome <;> simp_all
    have hloc : parseLocalStage o =
        .panicked "You have to provide `local_address` and `local_port` together" := by
      unfold parseLocalStage parseBindPair
      simp [hand, hxor]
    simp [Config.parse_json_object, ht, hs, hloc]
  · intro s n ha hn h4 h6
    obtain ⟨pj, hpj, hpu⟩ := Option.bind_eq_some.mp hn
    have hand : ((jget o "local_address").isSome && (jget o "local_port").isSome) = true := by
      rw [ha, hpj]
      rfl
    have hloc : parseLocalStage o =
        .err ⟨.Malformed, "`local_address` is not a valid IP address", none⟩ := by
      unfold parseLocalStage parseBindPair
      simp [hand, ha, Json.as_string, hn, h4, h6]
      intro hcon
      rw [hcon] at hpj
      exact Option.noConfusion hpj
    simp [Config.parse_json_object, ht, hs, hloc]
  · intro v hv
    constructor
    · intro hxor
      have hand : ((jget o "local_http_address").isSome && (jget o "local_http_port").isSome)
          = false := by
        cases hA : (jget o "local_http_address").isSome <;>
          cases hP : (jget o "local_http_port").isSome <;> simp_all
      have hhttp : parseHttpStage o =
          .panicked "You have to provide `local_http_address` and `local_http_port` together" := by
        unfold parseHttpStage parseBindPair
        simp [hand, hxor]
      simp [Config.parse_json_object, ht, hs, hv, hhttp]
    · intro s n ha hn h4 h6
      obtain ⟨pj, hpj, hpu⟩ := Option.bind_eq_some.mp hn
      have hand : ((jget o "local_http_address").isSome && (jget o "local_http_port").isSome)
          = true := by
        rw [ha, hpj]
        rfl
      have hhttp : parseHttpStage o =
          .err ⟨.Malformed, "`local_http_address` is not a valid IP address", none⟩ := by
        unfold parseHttpStage parseBindPair
        simp [hand, ha, Json.as_string, hn, h4, h6]
        intro hcon
        rw [hcon] at hpj
        exact Option.noConfusion hpj
      simp [Config.parse_json_object, ht, hs, hv, hhttp]

/-- C4 witness: a lone `local_address` panics, a non-IP `local_address`
with a port is `Malformed`, a lone `local_http_port` panics, and a non-IP
`local_http_address` pair is `Malformed`, through `claim_C4`. -/
theorem claim_C4_witness :
    Config.parse_json_object [("local_address", Json.str "127.0.0.1")] true =
      .panicked "You have to provide `local_address` and `local_port` together" ∧
    Config.parse_json_object
        [("local_address", Json.str "example.com"), ("local_port", Json.u64 1080)] true =
      .err ⟨.Malformed, "`local_address` is not a valid IP address", none⟩ ∧
    Config.parse_json_object [("local_http_port", Json.u64 8118)] true =
      .panicked "You have to provide `local_http_address` and `local_http_port` together" ∧
    Config.parse_json_object
        [("local_http_address", Json.str "nope"), ("local_http_port", Json.u64 1)] true =
      .err ⟨.Malformed, "`local_http_address` is not a valid IP address", none⟩ := by
  refine ⟨?_, ?_, ?_, ?_⟩
  · exact (claim_C4 [("local_address", Json.str "127.0.0.1")] none [] rfl rfl).1 rfl
  · exact (claim_C4 [("local_address", Json.str "example.com"), ("local_port", Json.u64 1080)]
      none [] rfl rfl).2.1 "example.com" 1080 rfl rfl (by decide) (by decide)
  · exact ((claim_C4 [("local_http_port", Json.u64 8118)] none [] rfl rfl).2.2 none rfl).1 rfl
  · exact ((claim_C4 [("local_http_address", Json.str "nope"), ("local_http_port", Json.u64 1)]
      none [] rfl rfl).2.2 none rfl).2 "nope" 1 rfl rfl (by decide) (by decide)

/-! ### Digit rendering and parsing round trips -/

theorem charToDigit?_digitChar (d : Nat) (h : d < 10) :
    charToDigit? (digitChar d) = some d := by
  interval_cases d <;> decide

theorem digitChar_ne_dot (d : Nat) (h : d < 10) : digitChar d ≠ '.' := by
  interval_cases d <;> decide

theorem digitChar_ne_colon (d : Nat) (h : d < 10) : digitChar d ≠ ':' := by
  interval_cases d <;> decide

theorem charToHex?_hexDigitChar (d : Nat) (h : d < 16) :
    charToHex? (hexDigitChar d) = some d := by
  interval_cases d <;> decide

theorem hexDigitChar_ne_colon (d : Nat) (h : d < 16) : hexDigitChar d ≠ ':' := by
  interval_cases d <;> decide

theorem hexDigitChar_ne_dot (d : Nat) (h : d < 16) : hexDigitChar d ≠ '.' := by
  interval_cases d <;> decide

theorem toDecLE_ne_nil (f n : Nat) : toDecLE (f + 1) n ≠ [] := by
  unfold toDecLE
  split <;> simp

theorem toDecLE_mem_lt (f : Nat) : ∀ n d, d ∈ toDecLE f n → d < 10 := by
  induction f with
  | zero =>
    intro n d h
    simp [toDecLE] at h
  | succ f ih =>
    intro n d h
    unfold toDecLE at h
    split at h
    · rename_i h10
      simp at h
      omega
    · simp only [List.mem_cons] at h
      rcases h with h | h
      · subst h
        exact Nat.mod_lt _ (by omega)
      · exact ih _ _ h

theorem toDecLE_foldl (f : Nat) : ∀ n acc, n ≤ f →
    (toDecLE f n).reverse.foldl (fun a d => a * 10 + d) acc =
      acc * 10 ^ (toDecLE f n).length + n := by
  induction f with
  | zero =>
    intro n acc h
    have hn : n = 0 := by omega
    subst hn
    simp [toDecLE]
  | succ f ih =>
    intro n acc h
    unfold toDecLE
    split
    · rename_i h10
      simp
    · rename_i h10
      have hle : n / 10 ≤ f := by
        have := Nat.div_lt_self (by omega : 0 < n) (by omega : 1 < 10)
        omega
      simp only [List.reverse_cons, List.foldl_append, List.foldl_cons, List.foldl_nil,
        List.length_cons]
      rw [ih (n / 10) acc hle, pow_succ, ← mul_assoc]
      generalize acc * 10 ^ (toDecLE f (n / 10)).length = B
      omega

theorem decValueGo_digits : ∀ (ds : List Nat) (acc : Nat), (∀ d ∈ ds, d < 10) →
    decValueGo acc (ds.map digitChar) = some (ds.foldl (fun a d => a * 10 + d) acc) := by
  intro ds
  induction ds with
  | nil => intro acc _; rfl
  | cons d ds ih =>
    intro acc h
    simp only [List.map_cons, decValueGo, charToDigit?_digitChar d (h d (by simp)),
      List.foldl_cons]
    exact ih _ (fun x hx => h x (by simp [hx]))

theorem decValue?_eq_go (l : List Char) (h : l ≠ []) : decValue? l = decValueGo 0 l := by
  cases l with
  | nil => exact absurd rfl h
  | cons c cs => rfl

theorem natToDecChars_ne_nil (n : Nat) : natToDecChars n ≠ [] := by
  unfold natToDecChars
  simp [toDecLE_ne_nil]

theorem decValue?_natToDecChars (n : Nat) : decValue? (natToDecChars n) = some n := by
  rw [decValue?_eq_go _ (natToDecChars_ne_nil n)]
  unfold natToDecChars
  rw [decValueGo_digits _ 0 (fun d hd => toDecLE_mem_lt _ _ _ (List.mem_reverse.mp hd))]
  rw [toDecLE_foldl (n + 1) n 0 (by omega)]
  simp

theorem natToDecChars_mem (n : Nat) (c : Char) (h : c ∈ natToDecChars n) :
    ∃ d, d < 10 ∧ c = digitChar d := by
  unfold natToDecChars at h
  simp only [List.mem_map, List.mem_reverse] at h
  obtain ⟨d, hd, rfl⟩ := h
  exact ⟨d, toDecLE_mem_lt _ _ _ hd, rfl⟩

theorem toHexLE_ne_nil (f n : Nat) : toHexLE (f + 1) n ≠ [] := by
  unfold toHexLE
  split <;> simp

theorem toHexLE_mem_lt (f : Nat) : ∀ n d, d ∈ toHexLE f n → d < 16 := by
  induction f with
  | zero =>
    intro n d h
    simp [toHexLE] at h
  | succ f ih =>
    intro n d h
    unfold toHexLE at h
    split at h
    · rename_i h16
      simp at h
      omega
    · simp only [List.mem_cons] at h
      rcases h with h | h
      · subst h
        exact Nat.mod_lt _ (by omega)
      · exact ih _ _ h

theorem toHexLE_foldl (f : Nat) : ∀ n acc, n ≤ f →
    (toHexLE f n).reverse.foldl (fun a d => a * 16 + d) acc =
      acc * 16 ^ (toHexLE f n).length + n := by
  induction f with
  | zero =>
    intro n acc h
    have hn : n = 0 := by omega
    subst hn
    simp [toHexLE]
  | succ f ih =>
    intro n acc h
    unfold toHexLE
    split
    · rename_i h16
      simp
    · rename_i h16
      have hle : n / 16 ≤ f := by
        have := Nat.div_lt_self (by omega : 0 < n) (by omega : 1 < 16)
        omega
      simp only [List.reverse_cons, List.foldl_append, List.foldl_cons, List.foldl_nil,
        List.length_cons]
      rw [ih (n / 16) acc hle, pow_succ, ← mul_assoc]
      generalize acc * 16 ^ (toHexLE f (n / 16)).length = B
      omega

theorem toHexLE_length (f : Nat) : ∀ n k, 1 ≤ k → n < 16 ^ k → (toHexLE f n).length ≤ k := by
  induction f with
  | zero =>
    intro n k _ _
    simp [toHexLE]
  | succ f ih =>
    intro n k hk hn
    unfold toHexLE
    split
    · simpa using hk
    · rename_i h16
      simp only [List.length_cons]
      have hk2 : 2 ≤ k := by
        by_contra hcon
        have : k = 1 := by omega
        subst this
        simp [pow_one] at hn
        omega
      have : n / 16 < 16 ^ (k - 1) := by
        have h16k : 16 ^ k = 16 ^ (k - 1) * 16 := by
          conv_lhs => rw [show k = (k - 1) + 1 by omega]
          rw [pow_succ]
        apply Nat.div_lt_of_lt_mul
        omega
      have := ih (n / 16) (k - 1) (by omega) this
      omega

theorem hexValueGo_digits : ∀ (ds : List Nat) (acc : Nat), (∀ d ∈ ds, d < 16) →
    hexValueGo acc (ds.map hexDigitChar) = some (ds.foldl (fun a d => a * 16 + d) acc) := by
  intro ds
  induction ds with
  | nil => intro acc _; rfl
  | cons d ds ih =>
    intro acc h
    simp only [List.map_cons, hexValueGo, charToHex?_hexDigitChar d (h d (by simp)),
      List.foldl_cons]
    exact ih _ (fun x hx => h x (by simp [hx]))

theorem hexValue?_eq_go (l : List Char) (h : l ≠ []) : hexValue? l = hexValueGo 0 l := by
  cases l with
  | nil => exact absurd rfl h
  | cons c cs => rfl

theorem natToHexChars_ne_nil (n : Nat) : natToHexChars n ≠ [] := by
  unfold natToHexChars
  simp [toHexLE_ne_nil]

theorem hexValue?_natToHexChars (n : Nat) : hexValue? (natToHexChars n) = some n := by
  rw [hexValue?_eq_go _ (natToHexChars_ne_nil n)]
  unfold natToHexChars
  rw [hexValueGo_digits _ 0 (fun d hd => toHexLE_mem_lt _ _ _ (List.mem_reverse.mp hd))]
  rw [toHexLE_foldl (n + 1) n 0 (by omega)]
  simp

theorem natToHexChars_length (n : Nat) (h : n < 65536) : (natToHexChars n).length ≤ 4 := by
  unfold natToHexChars
  simp only [List.length_map, List.length_reverse]
  exact toHexLE_length (n + 1) n 4 (by omega) (by norm_num; omega)

theorem parseHexGroup_natToHexChars (n : Nat) (h : n < 65536) :
    parseHexGroup (natToHexChars n) = some n := by
  unfold parseHexGroup
  rw [if_pos (natToHexChars_length n h), hexValue?_natToHexChars]

theorem natToHexChars_mem (n : Nat) (c : Char) (h : c ∈ natToHexChars n) :
    ∃ d, d < 16 ∧ c = hexDigitChar d := by
  unfold natToHexChars at h
  simp only [List.mem_map, List.mem_reverse] at h
  obtain ⟨d, hd, rfl⟩ := h
  exact ⟨d, toHexLE_mem_lt _ _ _ hd, rfl⟩


/-! ### Splitting and joining around separators; IP display round trips -/
theorem splitOnChar_not_mem (c : Char) (l : List Char) (h : c ∉ l) :
    splitOnChar c l = [l] := by
  induction l with
  | nil => rfl
  | cons x xs ih =>
    have hx : ¬x = c := fun he => h (by simp [he])
    have ht : c ∉ xs := fun hm => h (by simp [hm])
    simp [splitOnChar, hx, ih ht]

theorem splitOnChar_append (c : Char) (g rest : List Char) (h : c ∉ g) :
    splitOnChar c (g ++ c :: rest) = g :: splitOnChar c rest := by
  induction g with
  | nil => simp [splitOnChar]
  | cons x xs ih =>
    have hx : ¬x = c := fun he => h (by simp [he])
    have ht : c ∉ xs := fun hm => h (by simp [hm])
    simp [splitOnChar, hx, ih ht, List.append_eq]

theorem dot_not_mem_natToDecChars (n : Nat) : '.' ∉ natToDecChars n := by
  intro h
  obtain ⟨d, hd, he⟩ := natToDecChars_mem n _ h
  exact digitChar_ne_dot d hd he.symm

theorem ipv4_parse_render (ip : Ipv4Addr) (h : ip.wf) :
    Ipv4Addr.parse ip.toString = some ip := by
  obtain ⟨ha, hb, hc, hd⟩ := h
  show Ipv4Addr.parseChars ip.toChars = some ip
  have hsplit : splitOnChar '.' ip.toChars =
      [natToDecChars ip.a, natToDecChars ip.b, natToDecChars ip.c, natToDecChars ip.d] := by
    unfold Ipv4Addr.toChars
    simp only [List.cons_append, List.append_assoc]
    rw [splitOnChar_append _ _ _ (dot_not_mem_natToDecChars ip.a),
      splitOnChar_append _ _ _ (dot_not_mem_natToDecChars ip.b),
      splitOnChar_append _ _ _ (dot_not_mem_natToDecChars ip.c),
      splitOnChar_not_mem _ _ (dot_not_mem_natToDecChars ip.d)]
  unfold Ipv4Addr.parseChars
  rw [hsplit]
  simp [parseOctets, decValue?_natToDecChars, Option.bind,
    show ip.a ≤ 255 by omega, show ip.b ≤ 255 by omega,
    show ip.c ≤ 255 by omega, show ip.d ≤ 255 by omega]

theorem colon_not_mem_natToHexChars (n : Nat) : ':' ∉ natToHexChars n := by
  intro h
  obtain ⟨d, hd, he⟩ := natToHexChars_mem n _ h
  exact hexDigitChar_ne_colon d hd he.symm

theorem splitDColon_none_of (l : List Char) (h : hasDColon l = false) :
    splitDColon l = none := by
  induction l with
  | nil => rfl
  | cons a l ih =>
    cases l with
    | nil => rfl
    | cons b rest =>
      by_cases hab : a = ':' ∧ b = ':'
      · rw [hasDColon, if_pos hab] at h
        cases h
      · rw [hasDColon, if_neg hab] at h
        unfold splitDColon
        rw [if_neg hab, ih h]

theorem hasDColon_cons_cons (a b : Char) (rest : List Char) (h : ¬(a = ':' ∧ b = ':')) :
    hasDColon (a :: b :: rest) = hasDColon (b :: rest) := by
  rw [hasDColon, if_neg h]

theorem hasDColon_append (g l : List Char) : ':' ∉ g → hasDColon (g ++ l) = hasDColon l := by
  induction g with
  | nil => intro _; rfl
  | cons x g ih =>
    intro h
    have hx : x ≠ ':' := fun he => h (by simp [he])
    have hg : ':' ∉ g := fun hm => h (by simp [hm])
    cases g with
    | nil =>
      cases l with
      | nil => rfl
      | cons y t =>
        simpa using hasDColon_cons_cons x y t (fun hcc => hx hcc.1)
    | cons y g2 =>
      have step : hasDColon (x :: y :: (g2 ++ l)) = hasDColon (y :: (g2 ++ l)) :=
        hasDColon_cons_cons x y (g2 ++ l) (fun hcc => hx hcc.1)
      calc hasDColon ((x :: y :: g2) ++ l) = hasDColon (y :: (g2 ++ l)) := step
    _ = hasDColon l := by simpa using ih hg

theorem joinColon_cons (g : List Char) (gs : List (List Char)) (h : gs ≠ []) :
    joinColon (g :: gs) = g ++ ':' :: joinColon gs := by
  cases gs with
  | nil => exact absurd rfl h
  | cons g2 t => rfl

theorem hasDColon_joinColon (gs : List (List Char))
    (h : ∀ g ∈ gs, g ≠ [] ∧ ':' ∉ g) :
    hasDColon (joinColon gs) = false ∧
      (gs ≠ [] → hasDColon (':' :: joinColon gs) = false) := by
  induction gs with
  | nil => exact ⟨rfl, fun hcon => absurd rfl hcon⟩
  | cons g gs ih =>
    obtain ⟨hg_ne, hg_nc⟩ := h g (by simp)
    have hrest : ∀ x ∈ gs, x ≠ [] ∧ ':' ∉ x := fun x hx => h x (by simp [hx])
    obtain ⟨ih1, ih2⟩ := ih hrest
    obtain ⟨c, cs, rfl⟩ : ∃ c cs, g = c :: cs := by
      cases g with
      | nil => exact absurd rfl hg_ne
      | cons c cs => exact ⟨c, cs, rfl⟩
    have hcne : c ≠ ':' := fun he => hg_nc (by simp [he])
    cases gs with
    | nil =>
      have hflat : hasDColon (c :: cs) = false := by
        simpa using hasDColon_append (c :: cs) [] hg_nc
      refine ⟨hflat, fun _ => ?_⟩
      rw [show joinColon [c :: cs] = c :: cs from rfl,
        hasDColon_cons_cons ':' c cs (fun hcc => hcne hcc.2)]
      exact hflat
    | cons g2 t =>
      have hjc : joinColon ((c :: cs) :: g2 :: t) = (c :: cs) ++ ':' :: joinColon (g2 :: t) :=
        rfl
      have hmain : hasDColon ((c :: cs) ++ ':' :: joinColon (g2 :: t)) = false := by
        rw [hasDColon_append _ _ hg_nc]
        exact ih2 (by simp)
      constructor
      · rw [hjc]
        exact hmain
      · intro _
        rw [hjc]
        have : hasDColon (':' :: (c :: cs) ++ ':' :: joinColon (g2 :: t)) =
            hasDColon ((c :: cs) ++ ':' :: joinColon (g2 :: t)) := by
          simpa using hasDColon_cons_cons ':' c (cs ++ ':' :: joinColon (g2 :: t))
            (fun hcc => hcne hcc.2)
        rw [show ':' :: ((c :: cs) ++ ':' :: joinColon (g2 :: t)) =
          ':' :: (c :: cs) ++ ':' :: joinColon (g2 :: t) from rfl, this]
        exact hmain

theorem splitOnChar_joinColon (gs : List (List Char)) (h : ∀ g ∈ gs, g ≠ [] ∧ ':' ∉ g)
    (hne : gs ≠ []) : splitOnChar ':' (joinColon gs) = gs := by
  induction gs with
  | nil => exact absurd rfl hne
  | cons g gs ih =>
    cases gs with
    | nil => simpa [joinColon] using splitOnChar_not_mem ':' g (h g (by simp)).2
    | cons g2 t =>
      rw [joinColon_cons g _ (by simp), splitOnChar_append _ _ _ (h g (by simp)).2,
        ih (fun x hx => h x (by simp [hx])) (by simp)]

theorem ipv6_parse_render (ip : Ipv6Addr) (h : ip.wf) :
    Ipv6Addr.parse ip.toString = some ip := by
  obtain ⟨h0, h1, h2, h3, h4, h5, h6, h7⟩ := h
  show Ipv6Addr.parseChars ip.toChars = some ip
  have hgs : ∀ g ∈ ip.groups.map natToHexChars, g ≠ [] ∧ ':' ∉ g := by
    intro g hg
    simp only [List.mem_map] at hg
    obtain ⟨n, _, rfl⟩ := hg
    exact ⟨natToHexChars_ne_nil n, colon_not_mem_natToHexChars n⟩
  have hdc : hasDColon ip.toChars = false := by
    unfold Ipv6Addr.toChars
    exact (hasDColon_joinColon _ hgs).1
  have hsplit : splitOnChar ':' ip.toChars = ip.groups.map natToHexChars := by
    unfold Ipv6Addr.toChars
    exact splitOnChar_joinColon _ hgs (by simp [Ipv6Addr.groups])
  unfold Ipv6Addr.parseChars
  rw [splitDColon_none_of _ hdc, hsplit]
  simp [Ipv6Addr.groups, parseGroupsBack, ipv6OfList,
    parseHexGroup_natToHexChars _ h0, parseHexGroup_natToHexChars _ h1,
    parseHexGroup_natToHexChars _ h2, parseHexGroup_natToHexChars _ h3,
    parseHexGroup_natToHexChars _ h4, parseHexGroup_natToHexChars _ h5,
    parseHexGroup_natToHexChars _ h6, parseHexGroup_natToHexChars _ h7]

theorem mem_joinColon (gs : List (List Char)) (c : Char) (h : c ∈ joinColon gs) :
    c = ':' ∨ ∃ g ∈ gs, c ∈ g := by
  induction gs with
  | nil => simp [joinColon] at h
  | cons g gs ih =>
    cases gs with
    | nil =>
      right
      exact ⟨g, by simp, by simpa [joinColon] using h⟩
    | cons g2 t =>
      rw [joinColon_cons g _ (by simp)] at h
      rcases List.mem_append.mp h with hg | hr
      · exact Or.inr ⟨g, by simp, hg⟩
      · rcases List.mem_cons.mp hr with rfl | hj
        · exact Or.inl rfl
        · rcases ih hj with hcol | ⟨g3, hg3, hcg⟩
          · exact Or.inl hcol
          · exact Or.inr ⟨g3, by simp [hg3], hcg⟩

theorem dot_not_mem_toChars6 (ip : Ipv6Addr) : '.' ∉ ip.toChars := by
  intro h
  unfold Ipv6Addr.toChars at h
  rcases mem_joinColon _ _ h with hcol | ⟨g, hg, hcg⟩
  · cases hcol
  · simp only [List.mem_map] at hg
    obtain ⟨n, _, rfl⟩ := hg
    obtain ⟨d, hd, he⟩ := natToHexChars_mem n _ hcg
    exact hexDigitChar_ne_dot d hd he.symm

theorem colon_mem_toChars6 (ip : Ipv6Addr) : ':' ∈ ip.toChars := by
  unfold Ipv6Addr.toChars
  rw [show ip.groups.map natToHexChars = natToHexChars ip.s0 ::
    [ip.s1, ip.s2, ip.s3, ip.s4, ip.s5, ip.s6, ip.s7].map natToHexChars from rfl]
  rw [joinColon_cons _ _ (by simp)]
  simp

theorem decValueGo_none_of_mem (c : Char) (hd : charToDigit? c = none) :
    ∀ l acc, c ∈ l → decValueGo acc l = none := by
  intro l
  induction l with
  | nil =>
    intro acc h
    simp at h
  | cons x xs ih =>
    intro acc h
    unfold decValueGo
    cases hx : charToDigit? x with
    | none => rfl
    | some d =>
      have hcx : c ∈ xs := by
        rcases List.mem_cons.mp h with rfl | hm
        · rw [hx] at hd
          cases hd
        · exact hm
      exact ih _ hcx

theorem decValue?_none_of_mem (c : Char) (hd : charToDigit? c = none) (l : List Char)
    (hc : c ∈ l) : decValue? l = none := by
  rw [decValue?_eq_go l (by rintro rfl; simp at hc)]
  exact decValueGo_none_of_mem c hd l 0 hc

theorem ipv4_parse_of_ipv6_render (ip : Ipv6Addr) : Ipv4Addr.parse ip.toString = none := by
  show Ipv4Addr.parseChars ip.toChars = none
  have hsplit : splitOnChar '.' ip.toChars = [ip.toChars] :=
    splitOnChar_not_mem _ _ (dot_not_mem_toChars6 ip)
  have hdec : decValue? ip.toChars = none :=
    decValue?_none_of_mem ':' (by decide) _ (colon_mem_toChars6 ip)
  unfold Ipv4Addr.parseChars
  rw [hsplit]
  simp [parseOctets, hdec]

theorem CipherType.parse_toString (m : CipherType) :
    CipherType.parse m.toString = some m := by
  cases m <;> rfl


theorem Duration.from_secs_as_secs (t : Duration) : Duration.from_secs t.as_secs = t := rfl

/-- C6 (amended): for every `Config` with exactly one server whose address
satisfies `ServerAddr.roundtrip_safe` (the Rust range invariants, zero V6
flow info and scope id, and a domain name that is not itself an IP
literal), the serializer emits the legacy shape — `server`/`server_port`,
`password`, `method`, `timeout` in seconds exactly when the server has one —
with no `servers`, `forbidden_ip` or HTTP-proxy keys (so the forbidden-IP
set, the global timeout and the HTTP-proxy settings are not emitted and do
not round-trip), and reloading the emitted object yields an equal single
server. -/
theorem claim_C6 (c : Config) (s : ServerConfig) (hs : c.server = [s])
    (hrt : s.addr.roundtrip_safe) :
    ∀ o, Config.to_json c = Json.obj o →
      (jget o "server").isSome = true ∧
      (jget o "server_port").isSome = true ∧
      jget o "password" = some (Json.str s.password) ∧
      jget o "method" = some (Json.str s.method.toString) ∧
      jget o "timeout" = Option.map (fun t => Json.u64 t.as_secs) s.timeout ∧
      jget o "servers" = none ∧
      jget o "forbidden_ip" = none ∧
      jget o "local_http_address" = none ∧
      ∃ c2, Config.parse_json_object o false = .ok c2 ∧ c2.server = [s] := by
  obtain ⟨addr, password, method, timeout⟩ := s
  intro o ho
  cases addr with
  | DomainName d p =>
    obtain ⟨hport, h4, h6⟩ := hrt
    cases timeout with
    | none =>
      cases hloc : c.localAddr with
      | none =>
        simp [Config.to_json, hs, ServerAddr.to_json_object_old,
          ServerAddr.to_json_object_inner, objInsert, hloc] at ho
        subst ho
        refine ⟨rfl, rfl, rfl, rfl, rfl, rfl, rfl, rfl,
          ⟨[⟨.DomainName d p, password, method, none⟩], none, none, false, none, [],
            c.dns_cache_capacity⟩, ?_, rfl⟩
        simp [Config.parse_json_object, parseGlobalTimeout, parseServersStage, parseServerList,
          Config.parse_server, parseMethodField, parsePortField, parseAddrField,
          parsePasswordField, parseTimeoutField, parseForbiddenStage, parseDnsCacheStage,
          jget, Json.as_u64, Json.as_string, Json.as_array, Json.as_object, Except.map,
          except_bind_ok, CipherType.parse_toString, Duration.from_secs_as_secs, h4, h6, Nat.mod_eq_of_lt hport]
      | some l =>
        simp [Config.to_json, hs, ServerAddr.to_json_object_old,
          ServerAddr.to_json_object_inner, objInsert, hloc] at ho
        subst ho
        refine ⟨rfl, rfl, rfl, rfl, rfl, rfl, rfl, rfl,
          ⟨[⟨.DomainName d p, password, method, none⟩], none, none, false, none, [],
            c.dns_cache_capacity⟩, ?_, rfl⟩
        simp [Config.parse_json_object, parseGlobalTimeout, parseServersStage, parseServerList,
          Config.parse_server, parseMethodField, parsePortField, parseAddrField,
          parsePasswordField, parseTimeoutField, parseForbiddenStage, parseDnsCacheStage,
          jget, Json.as_u64, Json.as_string, Json.as_array, Json.as_object, Except.map,
          except_bind_ok, CipherType.parse_toString, Duration.from_secs_as_secs, h4, h6, Nat.mod_eq_of_lt hport]
    | some t =>
      cases hloc : c.localAddr with
      | none =>
        simp [Config.to_json, hs, ServerAddr.to_json_object_old,
          ServerAddr.to_json_object_inner, objInsert, hloc] at ho
        subst ho
        refine ⟨rfl, rfl, rfl, rfl, rfl, rfl, rfl, rfl,
          ⟨[⟨.DomainName d p, password, method, some t⟩], none, none, false, some t, [],
            c.dns_cache_capacity⟩, ?_, rfl⟩
        simp [Config.parse_json_object, parseGlobalTimeout, parseServersStage, parseServerList,
          Config.parse_server, parseMethodField, parsePortField, parseAddrField,
          parsePasswordField, parseTimeoutField, parseForbiddenStage, parseDnsCacheStage,
          jget, Json.as_u64, Json.as_string, Json.as_array, Json.as_object, Except.map,
          except_bind_ok, CipherType.parse_toString, Duration.from_secs_as_secs, h4, h6, Nat.mod_eq_of_lt hport]
      | some l =>
        simp [Config.to_json, hs, ServerAddr.to_json_object_old,
          ServerAddr.to_json_object_inner, objInsert, hloc] at ho
        subst ho
        refine ⟨rfl, rfl, rfl, rfl, rfl, rfl, rfl, rfl,
          ⟨[⟨.DomainName d p, password, method, some t⟩], none, none, false, some t, [],
            c.dns_cache_capacity⟩, ?_, rfl⟩
        simp [Config.parse_json_object, parseGlobalTimeout, parseServersStage, parseServerList,
          Config.parse_server, parseMethodField, parsePortField, parseAddrField,
          parsePasswordField, parseTimeoutField, parseForbiddenStage, parseDnsCacheStage,
          jget, Json.as_u64, Json.as_string, Json.as_array, Json.as_object, Except.map,
          except_bind_ok, CipherType.parse_toString, Duration.from_secs_as_secs, h4, h6, Nat.mod_eq_of_lt hport]
  | SocketAddr sa =>
    cases sa with
    | V4 a =>
      obtain ⟨hwf, hport⟩ := hrt
      cases timeout with
      | none =>
        cases hloc : c.localAddr with
        | none =>
          simp [Config.to_json, hs, ServerAddr.to_json_object_old,
            ServerAddr.to_json_object_inner, objInsert, hloc] at ho
          subst ho
          refine ⟨rfl, rfl, rfl, rfl, rfl, rfl, rfl, rfl,
            ⟨[⟨.SocketAddr (.V4 a), password, method, none⟩], none, none, false, none, [],
              c.dns_cache_capacity⟩, ?_, rfl⟩
          simp [Config.parse_json_object, parseGlobalTimeout, parseServersStage, parseServerList,
            Config.parse_server, parseMethodField, parsePortField, parseAddrField,
            parsePasswordField, parseTimeoutField, parseForbiddenStage, parseDnsCacheStage,
            jget, Json.as_u64, Json.as_string, Json.as_array, Json.as_object, Except.map,
            except_bind_ok, CipherType.parse_toString, Duration.from_secs_as_secs,
        ipv4_parse_render a.ip hwf, Nat.mod_eq_of_lt hport]
        | some l =>
          simp [Config.to_json, hs, ServerAddr.to_json_object_old,
            ServerAddr.to_json_object_inner, objInsert, hloc] at ho
          subst ho
          refine ⟨rfl, rfl, rfl, rfl, rfl, rfl, rfl, rfl,
            ⟨[⟨.SocketAddr (.V4 a), password, method, none⟩], none, none, false, none, [],
              c.dns_cache_capacity⟩, ?_, rfl⟩
          simp [Config.parse_json_object, parseGlobalTimeout, parseServersStage, parseServerList,
            Config.parse_server, parseMethodField, parsePortField, parseAddrField,
            parsePasswordField, parseTimeoutField, parseForbiddenStage, parseDnsCacheStage,
            jget, Json.as_u64, Json.as_string, Json.as_array, Json.as_object, Except.map,
            except_bind_ok, CipherType.parse_toString, Duration.from_secs_as_secs,
        ipv4_parse_render a.ip hwf, Nat.mod_eq_of_lt hport]
      | some t =>
        cases hloc : c.localAddr with
        | none =>
          simp [Config.to_json, hs, ServerAddr.to_json_object_old,
            ServerAddr.to_json_object_inner, objInsert, hloc] at ho
          subst ho
          refine ⟨rfl, rfl, rfl, rfl, rfl, rfl, rfl, rfl,
            ⟨[⟨.SocketAddr (.V4 a), password, method, some t⟩], none, none, false, some t, [],
              c.dns_cache_capacity⟩, ?_, rfl⟩
          simp [Config.parse_json_object, parseGlobalTimeout, parseServersStage, parseServerList,
            Config.parse_server, parseMethodField, parsePortField, parseAddrField,
            parsePasswordField, parseTimeoutField, parseForbiddenStage, parseDnsCacheStage,
            jget, Json.as_u64, Json.as_string, Json.as_array, Json.as_object, Except.map,
            except_bind_ok, CipherType.parse_toString, Duration.from_secs_as_secs,
        ipv4_parse_render a.ip hwf, Nat.mod_eq_of_lt hport]
        | some l =>
          simp [Config.to_json, hs, ServerAddr.to_json_object_old,
            ServerAddr.to_json_object_inner, objInsert, hloc] at ho
          subst ho
          refine ⟨rfl, rfl, rfl, rfl, rfl, rfl, rfl, rfl,
            ⟨[⟨.SocketAddr (.V4 a), password, method, some t⟩], none, none, false, some t, [],
              c.dns_cache_capacity⟩, ?_, rfl⟩
          simp [Config.parse_json_object, parseGlobalTimeout, parseServersStage, parseServerList,
            Config.parse_server, parseMethodField, parsePortField, parseAddrField,
            parsePasswordField, parseTimeoutField, parseForbiddenStage, parseDnsCacheStage,
            jget, Json.as_u64, Json.as_string, Json.as_array, Json.as_object, Except.map,
            except_bind_ok, CipherType.parse_toString, Duration.from_secs_as_secs,
        ipv4_parse_render a.ip hwf, Nat.mod_eq_of_lt hport]
    | V6 a =>
      obtain ⟨ip6, p6, fl, sc⟩ := a
      obtain ⟨hwf, hport, hfl, hsc⟩ := hrt
      subst hfl
      subst hsc
      cases timeout with
      | none =>
        cases hloc : c.localAddr with
        | none =>
          simp [Config.to_json, hs, ServerAddr.to_json_object_old,
            ServerAddr.to_json_object_inner, objInsert, hloc] at ho
          subst ho
          refine ⟨rfl, rfl, rfl, rfl, rfl, rfl, rfl, rfl,
            ⟨[⟨.SocketAddr (.V6 ⟨ip6, p6, 0, 0⟩), password, method, none⟩], none, none, false, none, [],
              c.dns_cache_capacity⟩, ?_, rfl⟩
          simp [Config.parse_json_object, parseGlobalTimeout, parseServersStage, parseServerList,
            Config.parse_server, parseMethodField, parsePortField, parseAddrField,
            parsePasswordField, parseTimeoutField, parseForbiddenStage, parseDnsCacheStage,
            jget, Json.as_u64, Json.as_string, Json.as_array, Json.as_object, Except.map,
            except_bind_ok, CipherType.parse_toString, Duration.from_secs_as_secs,
        ipv4_parse_of_ipv6_render ip6, ipv6_parse_render ip6 hwf, Nat.mod_eq_of_lt hport]
        | some l =>
          simp [Config.to_json, hs, ServerAddr.to_json_object_old,
            ServerAddr.to_json_object_inner, objInsert, hloc] at ho
          subst ho
          refine ⟨rfl, rfl, rfl, rfl, rfl, rfl, rfl, rfl,
            ⟨[⟨.SocketAddr (.V6 ⟨ip6, p6, 0, 0⟩), password, method, none⟩], none, none, false, none, [],
              c.dns_cache_capacity⟩, ?_, rfl⟩
          simp [Config.parse_json_object, parseGlobalTimeout, parseServersStage, parseServerList,
            Config.parse_server, parseMethodField, parsePortField, parseAddrField,
            parsePasswordField, parseTimeoutField, parseForbiddenStage, parseDnsCacheStage,
            jget, Json.as_u64, Json.as_string, Json.as_array, Json.as_object, Except.map,
            except_bind_ok, CipherType.parse_toString, Duration.from_secs_as_secs,
        ipv4_parse_of_ipv6_render ip6, ipv6_parse_render ip6 hwf, Nat.mod_eq_of_lt hport]
      | some t =>
        cases hloc : c.localAddr with
        | none =>
          simp [Config.to_json, hs, ServerAddr.to_json_object_old,
            ServerAddr.to_json_object_inner, objInsert, hloc] at ho
          subst ho
          refine ⟨rfl, rfl, rfl, rfl, rfl, rfl, rfl, rfl,
            ⟨[⟨.SocketAddr (.V6 ⟨ip6, p6, 0, 0⟩), password, method, some t⟩], none, none, false, some t, [],
              c.dns_cache_capacity⟩, ?_, rfl⟩
          simp [Config.parse_json_object, parseGlobalTimeout, parseServersStage, parseServerList,
            Config.parse_server, parseMethodField, parsePortField, parseAddrField,
            parsePasswordField, parseTimeoutField, parseForbiddenStage, parseDnsCacheStage,
            jget, Json.as_u64, Json.as_string, Json.as_array, Json.as_object, Except.map,
            except_bind_ok, CipherType.parse_toString, Duration.from_secs_as_secs,
        ipv4_parse_of_ipv6_render ip6, ipv6_parse_render ip6 hwf, Nat.mod_eq_of_lt hport]
        | some l =>
          simp [Config.to_json, hs, ServerAddr.to_json_object_old,
            ServerAddr.to_json_object_inner, objInsert, hloc] at ho
          subst ho
          refine ⟨rfl, rfl, rfl, rfl, rfl, rfl, rfl, rfl,
            ⟨[⟨.SocketAddr (.V6 ⟨ip6, p6, 0, 0⟩), password, method, some t⟩], none, none, false, some t, [],
              c.dns_cache_capacity⟩, ?_, rfl⟩
          simp [Config.parse_json_object, parseGlobalTimeout, parseServersStage, parseServerList,
            Config.parse_server, parseMethodField, parsePortField, parseAddrField,
            parsePasswordField, parseTimeoutField, parseForbiddenStage, parseDnsCacheStage,
            jget, Json.as_u64, Json.as_string, Json.as_array, Json.as_object, Except.map,
            except_bind_ok, CipherType.parse_toString, Duration.from_secs_as_secs,
        ipv4_parse_of_ipv6_render ip6, ipv6_parse_render ip6 hwf, Nat.mod_eq_of_lt hport]

/-- C6 counterexample: a single server whose address is the domain name
`"127.0.0.1"` serializes to the legacy shape, but reloading turns the
address into the `SocketAddr` variant — the reloaded server is not equal to
the original, so the round trip fails as stated for such a `Config`. -/
theorem claim_C6_counterexample :
    Config.to_json
        ⟨[⟨.DomainName "127.0.0.1" 80, "p", .rc4, none⟩], none, none, false, none, [], 128⟩ =
      Json.obj
        [("server", Json.str "127.0.0.1"), ("server_port", Json.u64 80),
         ("password", Json.str "p"), ("method", Json.str "rc4"),
         ("enable_udp", Json.boolean false), ("dns_cache_capacity", Json.u64 128)] ∧
    Config.parse_json_object
        [("server", Json.str "127.0.0.1"), ("server_port", Json.u64 80),
         ("password", Json.str "p"), ("method", Json.str "rc4"),
         ("enable_udp", Json.boolean false), ("dns_cache_capacity", Json.u64 128)] false =
      .ok ⟨[⟨.SocketAddr (.V4 ⟨⟨127, 0, 0, 1⟩, 80⟩), "p", .rc4, none⟩], none, none, false,
        none, [], 128⟩ ∧
    (ServerAddr.SocketAddr (.V4 ⟨⟨127, 0, 0, 1⟩, 80⟩) : ServerAddr) ≠
      .DomainName "127.0.0.1" 80 := by
  refine ⟨rfl, by decide, by decide⟩

/-- C6 witness: a one-server domain-name `Config` (with a global timeout and
a forbidden-IP entry that are dropped by serialization) reloads, through
`claim_C6`, to an equal single server. -/
theorem claim_C6_witness :
    ∃ c2, Config.parse_json_object
        [("server", Json.str "example.com"), ("server_port", Json.u64 443),
         ("password", Json.str "p"), ("method", Json.str "aes-128-cfb"),
         ("timeout", Json.u64 300), ("enable_udp", Json.boolean false),
         ("dns_cache_capacity", Json.u64 64)] false = .ok c2 ∧
      c2.server = [⟨.DomainName "example.com" 443, "p", .aes_128_cfb, some ⟨300⟩⟩] :=
  (claim_C6
    ⟨[⟨.DomainName "example.com" 443, "p", .aes_128_cfb, some ⟨300⟩⟩], none, none, false,
      some ⟨999⟩, [IpAddr.V4 ⟨8, 8, 8, 8⟩], 64⟩
    ⟨.DomainName "example.com" 443, "p", .aes_128_cfb, some ⟨300⟩⟩ rfl (by decide)
    [("server", Json.str "example.com"), ("server_port", Json.u64 443),
     ("password", Json.str "p"), ("method", Json.str "aes-128-cfb"),
     ("timeout", Json.u64 300), ("enable_udp", Json.boolean false),
     ("dns_cache_capacity", Json.u64 64)] rfl).2.2.2.2.2.2.2.2
